import Mathlib

/-!
# Verification of the Drive → Photos sync pipeline core

Shallow embedding of `src/tools/drive2photos/drive_to_photos_sync.py`:
the thread-safe `SyncState`, the `PhotosFilenameCache`, the
`BatchCollector` (batchCreate coalescing), the retrying upload helper
`photos_upload_bytes`, the per-file worker `process_one_file`, and the
run orchestration of `main` (pool → drain → final flush).

Modelling conventions:
* Concurrency is sequentialised: every critical section in the source is
  guarded by a mutex, so a run is modelled as a sequence of atomic state
  transitions (items processed in order, batch flushes performed at
  drain time).  The claims settled here do not depend on interleaving.
* Network calls are oracles: an environment supplies the HTTP status /
  parsed body for each attempt of each call.
* JSON serialisation of a persisted set is abstracted to its sorted
  element list (the source writes `json.dump(sorted(data))`).
* SHA-256 is an abstract function `hashOf : List Nat → String` supplied
  as a parameter (only its output is ever compared in the source).
* Logging-only data (`size_mb`, the `[idx/total]` marker string, message
  texts) is omitted from the embedded records.
-/

namespace Wind

/-! ## Constants (from the source header) -/

/-- `MAX_RETRIES = 3` -/
def MAX_RETRIES : Nat := 3

/-- `RETRY_BASE_DELAY = 2.0` seconds, doubled on each attempt. -/
def RETRY_BASE_DELAY : ℚ := 2

/-- `BatchCollector._BATCH_SIZE = 50` -/
def BATCH_SIZE : Nat := 50

/-- `DEFAULT_SAVE_EVERY = 25` -/
def DEFAULT_SAVE_EVERY : Nat := 25

/-- `UPLOADED_IDS_FILE = "uploaded_ids.json"` -/
def UPLOADED_IDS_FILE : String := "uploaded_ids.json"

/-- `UPLOADED_HASHES_FILE = "uploaded_hashes.json"` -/
def UPLOADED_HASHES_FILE : String := "uploaded_hashes.json"

/-- `PHOTOS_FILENAME_CACHE_FILE = "photos_filename_cache.json"` -/
def PHOTOS_FILENAME_CACHE_FILE : String := "photos_filename_cache.json"

/-! ## Persisted JSON-set store

The two ledger files hold JSON arrays; `_save_json_set` writes
`sorted(data)`.  We model the disk contents seen through
`_load_json_set` as an association list from path to the sorted element
list; `setFile` shadows the previous entry.  (Byte-level crash
atomicity of the write itself is modelled separately below.) -/

abbrev Store := List (String × List String)

/-- Read a persisted set file (most recent write wins). -/
def readStore (d : Store) (path : String) : Option (List String) :=
  (d.find? fun kv => kv.1 = path).map (·.2)

/-- Overwrite a persisted set file. -/
def setFile (d : Store) (path : String) (content : List String) : Store :=
  (path, content) :: d

/-- `json.dump(sorted(data))`: the serialised form of a set is its
sorted element list. -/
def serializeSet (s : Finset String) : List String :=
  s.sort (· ≤ ·)

/-! ## `SyncState` -/

/-- `SyncState`: counters, the two ledger sets, the shutdown event and
the on-disk snapshot written by `_persist`.  `shutdown` models the
`threading.Event`; `fs` models the two files `_persist` writes. -/
structure SyncState where
  save_every : Nat
  ops_since_save : Nat
  success_count : Nat
  fail_count : Nat
  skip_count : Nat
  uploaded_ids : Finset String
  uploaded_hashes : Finset String
  shutdown : Bool
  fs : Store
deriving DecidableEq

/-- `SyncState._persist`: write both sets atomically (via
`_save_json_set`), reset the op counter. -/
def SyncState.persist (s : SyncState) : SyncState :=
  { s with
    fs := setFile (setFile s.fs UPLOADED_IDS_FILE (serializeSet s.uploaded_ids))
            UPLOADED_HASHES_FILE (serializeSet s.uploaded_hashes)
    ops_since_save := 0 }

/-- `SyncState.record_success(file_id, file_hash)`: add the id, add the
hash when truthy (Python `if file_hash:` — `None` and `""` are falsy),
bump `success_count` and `_ops_since_save`, auto-persist when the
threshold is reached. -/
def SyncState.record_success (s : SyncState) (file_id : String)
    (file_hash : Option String) : SyncState :=
  let s1 : SyncState :=
    { s with
      uploaded_ids := insert file_id s.uploaded_ids
      uploaded_hashes :=
        match file_hash with
        | some h => if h = "" then s.uploaded_hashes else insert h s.uploaded_hashes
        | none => s.uploaded_hashes
      success_count := s.success_count + 1
      ops_since_save := s.ops_since_save + 1 }
  if s1.save_every ≤ s1.ops_since_save then s1.persist else s1

/-- `SyncState.record_failure()` -/
def SyncState.record_failure (s : SyncState) : SyncState :=
  { s with fail_count := s.fail_count + 1 }

/-- `SyncState.record_skip()` -/
def SyncState.record_skip (s : SyncState) : SyncState :=
  { s with skip_count := s.skip_count + 1 }

/-- `SyncState.flush()`: force a save (used on exit). -/
def SyncState.flush (s : SyncState) : SyncState :=
  s.persist

/-- Sum of the three outcome counters. -/
def sumCounters (s : SyncState) : Nat :=
  s.success_count + s.fail_count + s.skip_count

/-! ## `PhotosFilenameCache` (in-memory part)

`main` constructs the cache only for the filename dedup modes, so the
worker receives `Option (Finset String)`; `contains` on a present cache
is set membership, `add` inserts. -/

/-- `photos_cache.contains(filename)` guarded by the Python truthiness
check `and photos_cache` of the caller. -/
def cacheContains (c : Option (Finset String)) (name : String) : Bool :=
  match c with
  | some s => decide (name ∈ s)
  | none => false

/-- `photos_cache.add(filename)` (no-op when absent, mirroring
`if self._photos_cache:`). -/
def cacheAdd (c : Option (Finset String)) (name : String) : Option (Finset String) :=
  c.map (insert name)

/-! ## `BatchCollector` -/

/-- One buffered pending commit, as appended by `enqueue`
(logging-only fields `size_mb` and the progress marker are omitted). -/
structure BatchItem where
  upload_token : String
  filename : String
  description : Option String
  file_id : String
  file_hash : Option String
deriving DecidableEq

/-- One entry of `newMediaItemResults`: the optional gRPC status
(`result.get("status", {})`) flattened to its `code` and `message`
fields, each optional with the source's defaults. -/
structure ItemResult where
  code : Option Int
  message : Option String
deriving DecidableEq

/-- Character-list prefix test. -/
def listIsPrefix : List Char → List Char → Bool
  | [], _ => true
  | _ :: _, [] => false
  | a :: as, b :: bs => a = b && listIsPrefix as bs

/-- Python `str.lower()`, character-wise. -/
def lowerStr (s : String) : String :=
  String.mk (s.toList.map Char.toLower)

/-- `needle in hay` (Python substring test). -/
def strContains (hay needle : String) : Bool :=
  (List.range (hay.toList.length + 1)).any fun i =>
    listIsPrefix needle.toList (hay.toList.drop i)

/-- The per-item success test of `_do_flush` / `photos_create_item`:
`status.get("code", -1) == 0 or "success" in status.get("message", "").lower()`. -/
def resultOk (r : ItemResult) : Bool :=
  (r.code.getD (-1) == 0) || strContains (lowerStr (r.message.getD "")) "success"

/-- What `_do_flush` records for one (response entry, batch item) pair. -/
inductive FlushRec where
  | succ (file_id : String) (file_hash : Option String) (filename : String)
  | fail
deriving DecidableEq

/-- Build the record for one positional pair. -/
def recOf (r : ItemResult) (it : BatchItem) : FlushRec :=
  if resultOk r then .succ it.file_id it.file_hash it.filename else .fail

/-- The recording loop of `_do_flush`:
`for i, result in enumerate(results): if i >= len(batch): break; …` —
iteration stops at the shorter of the two lists, positionally. -/
def flushRecs (results : List ItemResult) (batch : List BatchItem) : List FlushRec :=
  (results.zip batch).map fun p => recOf p.1 p.2

/-- Whether a record is a success record. -/
def FlushRec.isSucc : FlushRec → Bool
  | .succ _ _ _ => true
  | .fail => false

/-- Ids recorded as successfully committed by a list of records. -/
def succIds (recs : List FlushRec) : List String :=
  recs.filterMap fun r => match r with | .succ i _ _ => some i | .fail => none

/-- Hashes added to the ledger by a list of records (present and
nonempty only, matching `if file_hash:`). -/
def succHashes (recs : List FlushRec) : List String :=
  recs.filterMap fun r =>
    match r with
    | .succ _ (some h) _ => if h = "" then none else some h
    | _ => none

/-- Filenames added to the destination name index by a list of
records. -/
def succNames (recs : List FlushRec) : List String :=
  recs.filterMap fun r => match r with | .succ _ _ n => some n | .fail => none

/-- Apply one record: success → `state.record_success` plus
`photos_cache.add`; failure → `state.record_failure`. -/
def applyRec (sc : SyncState × Option (Finset String)) :
    FlushRec → SyncState × Option (Finset String)
  | .succ i h n => (sc.1.record_success i h, cacheAdd sc.2 n)
  | .fail => (sc.1.record_failure, sc.2)

/-- Apply all records of one flush in request order. -/
def applyRecs (recs : List FlushRec) (st : SyncState) (c : Option (Finset String)) :
    SyncState × Option (Finset String) :=
  recs.foldl applyRec (st, c)

/-- `record_failure` for every item of the batch (the `for _ in batch:`
loops of `_do_flush` on a non-retryable error / exhausted retries). -/
def recordBatchFailure (batch : List BatchItem) (st : SyncState) : SyncState :=
  batch.foldl (fun s _ => s.record_failure) st

/-- One HTTP response of a `batchCreate` attempt: status code plus the
parsed `newMediaItemResults` (meaningful only for status 200). -/
structure BatchResp where
  status : Nat
  results : List ItemResult

/-- The retry loop of `_do_flush` over a list of per-attempt responses:
429 → next attempt; other non-200 → fail the whole batch; 200 → record
per item; running out of attempts → fail the whole batch. -/
def do_flush_attempts (batch : List BatchItem) :
    List BatchResp → SyncState → Option (Finset String) →
    SyncState × Option (Finset String)
  | [], st, c => (recordBatchFailure batch st, c)
  | r :: rest, st, c =>
    if r.status = 429 then do_flush_attempts batch rest st c
    else if r.status = 200 then applyRecs (flushRecs r.results batch) st c
    else (recordBatchFailure batch st, c)

/-- The response actually consumed by the retry loop: the first
non-429 answer among the attempts, if any. -/
def effectiveResp : List BatchResp → Option BatchResp
  | [] => none
  | r :: rest => if r.status = 429 then effectiveResp rest else some r

/-- The at-most-`MAX_RETRIES` responses a flush can consume, drawn from
a per-attempt oracle. -/
def attemptList (script : Nat → BatchResp) : List BatchResp :=
  (List.range MAX_RETRIES).map script

/-- A flush's 200-response covers `n` items. -/
def flushCovers (script : Nat → BatchResp) (n : Nat) : Prop :=
  ∀ r, effectiveResp (attemptList script) = some r → r.status = 200 →
    n ≤ r.results.length

/-- The successive batches `_do_flush` pops from a buffer:
`batch = buffer[:50]; buffer = buffer[50:]`, repeated until empty.
Structural fuel (`= buffer.length`) stands in for the source's
while-loop; `batchesOf` below instantiates it. -/
def popBatchesAux : Nat → List BatchItem → List (List BatchItem)
  | 0, _ => []
  | _, [] => []
  | fuel + 1, x :: xs =>
    ((x :: xs).take BATCH_SIZE) :: popBatchesAux fuel ((x :: xs).drop BATCH_SIZE)

/-- All group-commit calls issued while draining a buffer, in order. -/
def batchesOf (buffer : List BatchItem) : List (List BatchItem) :=
  popBatchesAux buffer.length buffer

/-- `drain()`: flush batch after batch until the buffer is empty; the
`k`-th flush consumes the responses of `scripts k`. -/
def drainBatches (scripts : Nat → Nat → BatchResp) :
    Nat → List (List BatchItem) → SyncState → Option (Finset String) →
    SyncState × Option (Finset String)
  | _, [], st, c => (st, c)
  | k, b :: bs, st, c =>
    let p := do_flush_attempts b (attemptList (scripts k)) st c
    drainBatches scripts (k + 1) bs p.1 p.2

/-- Drain a whole buffer starting from flush index 0. -/
def drain (scripts : Nat → Nat → BatchResp) (buffer : List BatchItem)
    (st : SyncState) (c : Option (Finset String)) :
    SyncState × Option (Finset String) :=
  drainBatches scripts 0 (batchesOf buffer) st c

/-! ## `photos_upload_bytes` -/

/-- One HTTP response: status code and body text (the upload token on
200). -/
structure HttpResp where
  status : Nat
  body : String

/-- The attempt loop of `photos_upload_bytes` over a per-attempt
response oracle (request token/bytes/filename are absorbed into the
oracle).  Returns (result, number of POST attempts made, the sleeps
performed, each `RETRY_BASE_DELAY * 2 ** attempt`).  200 → return the
body; 429 → sleep then continue; anything else → give up at once;
`range(MAX_RETRIES)` exhausted → give up.  Fuel is the number of loop
iterations left (`MAX_RETRIES - attempt`). -/
def uploadLoop (resp : Nat → HttpResp) : Nat → Nat → Option String × Nat × List ℚ
  | _, 0 => (none, 0, [])
  | attempt, fuel + 1 =>
    let r := resp attempt
    if r.status = 200 then (some r.body, 1, [])
    else if r.status = 429 then
      let wait := RETRY_BASE_DELAY * 2 ^ attempt
      let t := uploadLoop resp (attempt + 1) fuel
      (t.1, t.2.1 + 1, wait :: t.2.2)
    else (none, 1, [])

/-- `photos_upload_bytes`: run the loop from attempt 0. -/
def photos_upload_bytes (resp : Nat → HttpResp) : Option String × Nat × List ℚ :=
  uploadLoop resp 0 MAX_RETRIES

/-! ## `process_one_file` -/

/-- Terminal outcome string of `process_one_file`. -/
inductive Outcome where
  | uploaded
  | skipped
  | failed
deriving DecidableEq

/-- Per-item environment: the Drive download result (`download_file`
either returns the bytes or raises) and the Photos upload-bytes
response oracle. -/
structure ItemEnv where
  download : Except String (List Nat)
  upload_resps : Nat → HttpResp

/-- Item metadata from the Drive listing (fields used by the worker). -/
structure FileMeta where
  id : String
  name : String
  createdTime : Option String
  modifiedTime : Option String

/-- The description string built by the worker:
`" | ".join(["Drive ID: …"] + optional Created/Modified parts)`. -/
def buildDescription (f : FileMeta) : String :=
  String.intercalate " | "
    (["Drive ID: " ++ f.id]
      ++ (match f.createdTime with | some t => ["Created: " ++ t] | none => [])
      ++ (match f.modifiedTime with | some t => ["Modified: " ++ t] | none => []))

/-- Result of one `process_one_file` call: the returned outcome string,
the updated shared state, the item handed to the batch collector (if
any), and whether a download was attempted. -/
structure ProcResult where
  outcome : Outcome
  state : SyncState
  enqueued : Option BatchItem
  downloaded : Bool
deriving DecidableEq

/-- Final phase of `process_one_file`: `photos_upload_bytes`, then on a
truthy upload token (`if not upload_token:` — `None` and `""` are
falsy) hand the pending commit to the batch collector and return
`"uploaded"` optimistically, recording nothing yet. -/
def uploadAndEnqueue (file : FileMeta) (env : ItemEnv)
    (file_hash : Option String) (st : SyncState) : ProcResult :=
  match (photos_upload_bytes env.upload_resps).1 with
  | none => ⟨.failed, st.record_failure, none, true⟩
  | some tok =>
    if tok = "" then ⟨.failed, st.record_failure, none, true⟩
    else
      ⟨.uploaded, st,
        some ⟨tok, file.name, some (buildDescription file),
          file.id, file_hash⟩, true⟩

/-- `process_one_file` in the batched flow (`main` always passes a
`BatchCollector`, so the single-item `photos_create_item` fallback
branch is dead there and not modelled).  Mirrors the source order:
shutdown check → filename dedup → download → hash dedup → upload bytes
→ enqueue. -/
def process_one_file (file : FileMeta) (dedup_mode : String)
    (env : ItemEnv) (hashOf : List Nat → String)
    (st : SyncState) (photos_cache : Option (Finset String)) : ProcResult :=
  if st.shutdown then ⟨.skipped, st, none, false⟩
  else if (dedup_mode = "filename" || dedup_mode = "filename+hash")
      && cacheContains photos_cache file.name then
    ⟨.skipped, st.record_skip, none, false⟩
  else
    match env.download with
    | .error _ => ⟨.failed, st.record_failure, none, true⟩
    | .ok data =>
      if dedup_mode = "hash" || dedup_mode = "filename+hash" then
        if hashOf data ∈ st.uploaded_hashes then
          ⟨.skipped, st.record_skip, none, true⟩
        else uploadAndEnqueue file env (some (hashOf data)) st
      else uploadAndEnqueue file env none st

/-! ## Run orchestration (`main`) -/

/-- An event of a run: a pool item being picked up by a worker, or the
SIGINT handler firing. -/
inductive RunEvent where
  | item : FileMeta → ItemEnv → RunEvent
  | interrupt : RunEvent

/-- `_handle_interrupt`: set the shutdown event once; the guard
`if not state.shutdown.is_set()` makes the second signal a no-op.  The
boolean reports whether the one-time notice was printed. -/
def handleInterrupt (st : SyncState) : SyncState × Bool :=
  if st.shutdown then (st, false) else ({ st with shutdown := true }, true)

/-- Process the run events in order, threading the shared state and the
batch collector's buffer (`enqueue` appends).  The filename cache is
read-only here: in the batched flow the worker never writes it. -/
def runEvents (hashOf : List Nat → String) (dedup_mode : String)
    (photos_cache : Option (Finset String)) :
    List RunEvent → SyncState → List BatchItem → SyncState × List BatchItem
  | [], st, buf => (st, buf)
  | .interrupt :: rest, st, buf =>
    runEvents hashOf dedup_mode photos_cache rest (handleInterrupt st).1 buf
  | .item f env :: rest, st, buf =>
    let r := process_one_file f dedup_mode env hashOf st photos_cache
    runEvents hashOf dedup_mode photos_cache rest r.state (buf ++ r.enqueued.toList)

/-- Number of items a worker actually claims (shutdown not yet set when
the worker checks the flag). -/
def claimedCount : List RunEvent → Bool → Nat
  | [], _ => 0
  | .interrupt :: rest, _ => claimedCount rest true
  | .item _ _ :: rest, b => (if b then 0 else 1) + claimedCount rest b

/-- Number of items submitted to the pool. -/
def totalItems (events : List RunEvent) : Nat :=
  events.countP fun e => match e with | .item _ _ => true | .interrupt => false

/-- The tail of `main`: run the pool, then `batch_collector.drain()`,
then `state.flush()`. -/
def mainRun (hashOf : List Nat → String) (dedup_mode : String)
    (photos_cache : Option (Finset String)) (events : List RunEvent)
    (scripts : Nat → Nat → BatchResp) (st0 : SyncState) :
    SyncState × Option (Finset String) :=
  let r := runEvents hashOf dedup_mode photos_cache events st0 []
  let d := drain scripts r.2 r.1 photos_cache
  (d.1.flush, d.2)

/-! ## Byte-level crash model for the persisted files

`_save_json_set` writes `path + ".tmp"` then `os.replace`s it over
`path`; `PhotosFilenameCache._rebuild` opens the cache file itself with
mode `"w"` (truncating it) and writes into it directly.  A crash can
stop the step sequence after any prefix. -/

abbrev Disk := List (String × String)

/-- Current content of a file (most recent write wins). -/
def readDisk (d : Disk) (path : String) : Option String :=
  (d.find? fun kv => kv.1 = path).map (·.2)

/-- Set the content of a file. -/
def writeDisk (d : Disk) (path content : String) : Disk :=
  (path, content) :: d

/-- Delete a file. -/
def removeDisk (d : Disk) (path : String) : Disk :=
  d.filter fun kv => ¬ kv.1 = path

/-- Primitive filesystem steps: `open(p, "w")` truncates, writes fill
the file, `os.replace` renames atomically. -/
inductive FsStep where
  | write (path content : String)
  | rename (src dst : String)

/-- Apply one step. -/
def applyStep (d : Disk) : FsStep → Disk
  | .write p c => writeDisk d p c
  | .rename s t =>
    match readDisk d s with
    | some c => writeDisk (removeDisk d s) t c
    | none => d

/-- Steps of `_save_json_set(data, path)`: truncate the `.tmp` sibling,
fill it, atomically replace the target. -/
def save_json_set_steps (path content : String) : List FsStep :=
  [.write (path ++ ".tmp") "", .write (path ++ ".tmp") content,
    .rename (path ++ ".tmp") path]

/-- Steps of the cache write in `PhotosFilenameCache._rebuild`:
`open(PHOTOS_FILENAME_CACHE_FILE, "w")` truncates the real file, then
`json.dump` fills it — no temporary, no rename. -/
def cache_save_steps (content : String) : List FsStep :=
  [.write PHOTOS_FILENAME_CACHE_FILE "", .write PHOTOS_FILENAME_CACHE_FILE content]

/-- Every disk state observable if the process dies after any prefix of
the steps (including none and all). -/
def crashStates (d : Disk) (steps : List FsStep) : List Disk :=
  steps.scanl applyStep d

/-! ## Concrete fixtures for witnesses and counterexamples -/

/-- A fresh `SyncState` as built at the start of a run with empty
ledger files. -/
def freshState : SyncState :=
  ⟨DEFAULT_SAVE_EVERY, 0, 0, 0, 0, ∅, ∅, false, []⟩

/-- A simple Drive file listing entry. -/
def sampleFile (n : Nat) : FileMeta :=
  ⟨"id" ++ toString n, "f" ++ toString n ++ ".jpg", none, none⟩

/-- A simple pending commit. -/
def sampleBatchItem (n : Nat) : BatchItem :=
  ⟨"tok" ++ toString n, "f" ++ toString n ++ ".jpg", none, "id" ++ toString n, none⟩

/-- An environment where the download and the byte upload both
succeed at once. -/
def okEnv : ItemEnv :=
  ⟨Except.ok [0], fun _ => ⟨200, "tok"⟩⟩

/-- A response entry whose status code is 0 (success). -/
def okItemResult : ItemResult :=
  ⟨some 0, none⟩

/-- A response entry with a failure status. -/
def failItemResult : ItemResult :=
  ⟨some 13, none⟩

/-- A batchCreate script that always answers 200 with `n` success
entries. -/
def okScript (n : Nat) : Nat → BatchResp :=
  fun _ => ⟨200, List.replicate n okItemResult⟩

/-- A state whose ledger already holds one id and one hash. -/
def ledgerState : SyncState :=
  ⟨DEFAULT_SAVE_EVERY, 0, 0, 0, 0, {"a"}, {"h"}, false, []⟩

/-- The response pattern of the partial-batch-failure scenario: 50
entries, failure status at positions 3 and 47, success elsewhere. -/
def c3Results : List ItemResult :=
  (List.range 50).map fun i =>
    if i = 3 ∨ i = 47 then failItemResult else okItemResult

end Wind

/-! ## Theorems -/

namespace Wind

/-- Components of `record_success`: the id set always gains `file_id`. -/
theorem record_success_ids (s : SyncState) (i : String) (h : Option String) :
    (s.record_success i h).uploaded_ids = insert i s.uploaded_ids := by
  unfold SyncState.record_success SyncState.persist
  cases h <;> simp <;> split <;> rfl

/-- Components of `record_success`: the hash set gains `h` exactly when
the hash is present and nonempty. -/
theorem record_success_hashes (s : SyncState) (i : String) (h : Option String) :
    (s.record_success i h).uploaded_hashes =
      match h with
      | some v => if v = "" then s.uploaded_hashes else insert v s.uploaded_hashes
      | none => s.uploaded_hashes := by
  unfold SyncState.record_success SyncState.persist
  cases h <;> simp <;> split <;> rfl

/-- `record_success` always bumps the success counter. -/
theorem record_success_success_count (s : SyncState) (i : String) (h : Option String) :
    (s.record_success i h).success_count = s.success_count + 1 := by
  unfold SyncState.record_success SyncState.persist
  cases h <;> simp <;> split <;> rfl

/-- `record_success` leaves the fail counter alone. -/
theorem record_success_fail_count (s : SyncState) (i : String) (h : Option String) :
    (s.record_success i h).fail_count = s.fail_count := by
  unfold SyncState.record_success SyncState.persist
  cases h <;> simp <;> split <;> rfl

/-- `record_success` leaves the skip counter alone. -/
theorem record_success_skip_count (s : SyncState) (i : String) (h : Option String) :
    (s.record_success i h).skip_count = s.skip_count := by
  unfold SyncState.record_success SyncState.persist
  cases h <;> simp <;> split <;> rfl

/-- `record_success` never touches the shutdown flag. -/
theorem record_success_shutdown (s : SyncState) (i : String) (h : Option String) :
    (s.record_success i h).shutdown = s.shutdown := by
  unfold SyncState.record_success SyncState.persist
  cases h <;> simp <;> split <;> rfl

/-- `record_success` never changes `save_every`. -/
theorem record_success_save_every (s : SyncState) (i : String) (h : Option String) :
    (s.record_success i h).save_every = s.save_every := by
  unfold SyncState.record_success SyncState.persist
  cases h <;> simp <;> split <;> rfl

/-- `record_success` adds one to the counter sum. -/
theorem record_success_sum (s : SyncState) (i : String) (h : Option String) :
    sumCounters (s.record_success i h) = sumCounters s + 1 := by
  unfold sumCounters
  rw [record_success_success_count, record_success_fail_count,
    record_success_skip_count]
  omega

/-! ### Flush recording lemmas -/

/-- Applying the records of one flush touches the counter sum once per
record. -/
theorem applyRecs_sum (recs : List FlushRec) (st : SyncState)
    (c : Option (Finset String)) :
    sumCounters (applyRecs recs st c).1 = sumCounters st + recs.length := by
  induction recs generalizing st c with
  | nil => simp [applyRecs]
  | cons r rest ih =>
    cases r with
    | succ i h n =>
      simp only [applyRecs, List.foldl_cons, applyRec] at *
      rw [ih, record_success_sum]
      simp only [List.length_cons]
      omega
    | fail =>
      simp only [applyRecs, List.foldl_cons, applyRec] at *
      rw [ih]
      simp [SyncState.record_failure, sumCounters]
      omega

/-- Success counter after a flush: one per success record. -/
theorem applyRecs_success_count (recs : List FlushRec) (st : SyncState)
    (c : Option (Finset String)) :
    (applyRecs recs st c).1.success_count =
      st.success_count + recs.countP FlushRec.isSucc := by
  induction recs generalizing st c with
  | nil => simp [applyRecs]
  | cons r rest ih =>
    cases r with
    | succ i h n =>
      simp only [applyRecs, List.foldl_cons, applyRec] at *
      rw [ih, record_success_success_count]
      simp [List.countP_cons, FlushRec.isSucc]
      omega
    | fail =>
      simp only [applyRecs, List.foldl_cons, applyRec] at *
      rw [ih]
      simp [SyncState.record_failure, List.countP_cons, FlushRec.isSucc]

/-- Fail counter after a flush: one per failure record. -/
theorem applyRecs_fail_count (recs : List FlushRec) (st : SyncState)
    (c : Option (Finset String)) :
    (applyRecs recs st c).1.fail_count =
      st.fail_count + recs.countP (fun r => ! r.isSucc) := by
  induction recs generalizing st c with
  | nil => simp [applyRecs]
  | cons r rest ih =>
    cases r with
    | succ i h n =>
      simp only [applyRecs, List.foldl_cons, applyRec] at *
      rw [ih, record_success_fail_count]
      simp [List.countP_cons, FlushRec.isSucc]
    | fail =>
      simp only [applyRecs, List.foldl_cons, applyRec] at *
      rw [ih]
      simp [SyncState.record_failure, List.countP_cons, FlushRec.isSucc]
      omega

/-- Skip counter is untouched by a flush. -/
theorem applyRecs_skip_count (recs : List FlushRec) (st : SyncState)
    (c : Option (Finset String)) :
    (applyRecs recs st c).1.skip_count = st.skip_count := by
  induction recs generalizing st c with
  | nil => simp [applyRecs]
  | cons r rest ih =>
    cases r with
    | succ i h n =>
      simp only [applyRecs, List.foldl_cons, applyRec] at *
      rw [ih, record_success_skip_count]
    | fail =>
      simp only [applyRecs, List.foldl_cons, applyRec] at *
      rw [ih]
      rfl

/-- The shutdown flag is untouched by a flush. -/
theorem applyRecs_shutdown (recs : List FlushRec) (st : SyncState)
    (c : Option (Finset String)) :
    (applyRecs recs st c).1.shutdown = st.shutdown := by
  induction recs generalizing st c with
  | nil => simp [applyRecs]
  | cons r rest ih =>
    cases r with
    | succ i h n =>
      simp only [applyRecs, List.foldl_cons, applyRec] at *
      rw [ih, record_success_shutdown]
    | fail =>
      simp only [applyRecs, List.foldl_cons, applyRec] at *
      rw [ih]
      rfl

/-- Ids after a flush: exactly the previous ids plus the ids of the
success records. -/
theorem applyRecs_ids (recs : List FlushRec) (st : SyncState)
    (c : Option (Finset String)) :
    (applyRecs recs st c).1.uploaded_ids =
      st.uploaded_ids ∪ (succIds recs).toFinset := by
  induction recs generalizing st c with
  | nil => simp [applyRecs, succIds]
  | cons r rest ih =>
    cases r with
    | succ i h n =>
      simp only [applyRecs, List.foldl_cons, applyRec] at *
      rw [ih, record_success_ids]
      simp [succIds, Finset.insert_union, Finset.union_insert]
    | fail =>
      simp only [applyRecs, List.foldl_cons, applyRec] at *
      rw [ih]
      simp [succIds, SyncState.record_failure]

/-- Hashes after a flush: the previous hashes plus the (present,
nonempty) hashes of the success records. -/
theorem applyRecs_hashes (recs : List FlushRec) (st : SyncState)
    (c : Option (Finset String)) :
    (applyRecs recs st c).1.uploaded_hashes =
      st.uploaded_hashes ∪ (succHashes recs).toFinset := by
  induction recs generalizing st c with
  | nil => simp [applyRecs, succHashes]
  | cons r rest ih =>
    cases r with
    | succ i h n =>
      simp only [applyRecs, List.foldl_cons, applyRec] at *
      rw [ih, record_success_hashes]
      cases h with
      | none => simp [succHashes]
      | some v =>
        by_cases hv : v = "" <;>
          simp [succHashes, hv, Finset.insert_union, Finset.union_insert]
    | fail =>
      simp only [applyRecs, List.foldl_cons, applyRec] at *
      rw [ih]
      simp [succHashes, SyncState.record_failure]

/-- Name index after a flush (present cache): the previous names plus
the filenames of the success records. -/
theorem applyRecs_cache (recs : List FlushRec) (st : SyncState) (s : Finset String) :
    (applyRecs recs st (some s)).2 = some (s ∪ (succNames recs).toFinset) := by
  induction recs generalizing st s with
  | nil => simp [applyRecs, succNames]
  | cons r rest ih =>
    cases r with
    | succ i h n =>
      simp only [applyRecs, List.foldl_cons, applyRec, cacheAdd, Option.map] at *
      rw [ih]
      simp [succNames, Finset.insert_union, Finset.union_insert]
    | fail =>
      simp only [applyRecs, List.foldl_cons, applyRec] at *
      rw [ih]
      simp [succNames]

/-! ### Whole-batch failure lemmas -/

/-- Failing a whole batch bumps the fail counter once per item. -/
theorem recordBatchFailure_fail_count (batch : List BatchItem) (st : SyncState) :
    (recordBatchFailure batch st).fail_count = st.fail_count + batch.length := by
  induction batch generalizing st with
  | nil => simp [recordBatchFailure]
  | cons b rest ih =>
    simp only [recordBatchFailure, List.foldl_cons] at *
    rw [ih]
    simp [SyncState.record_failure]
    omega

/-- Failing a whole batch changes nothing but the fail counter. -/
theorem recordBatchFailure_rest (batch : List BatchItem) (st : SyncState) :
    (recordBatchFailure batch st).success_count = st.success_count ∧
    (recordBatchFailure batch st).skip_count = st.skip_count ∧
    (recordBatchFailure batch st).uploaded_ids = st.uploaded_ids ∧
    (recordBatchFailure batch st).uploaded_hashes = st.uploaded_hashes ∧
    (recordBatchFailure batch st).shutdown = st.shutdown ∧
    (recordBatchFailure batch st).fs = st.fs := by
  induction batch generalizing st with
  | nil => simp [recordBatchFailure]
  | cons b rest ih =>
    simp only [recordBatchFailure, List.foldl_cons] at *
    exact ih (st.record_failure)

/-- Failing a whole batch adds its size to the counter sum. -/
theorem recordBatchFailure_sum (batch : List BatchItem) (st : SyncState) :
    sumCounters (recordBatchFailure batch st) = sumCounters st + batch.length := by
  have h := recordBatchFailure_rest batch st
  unfold sumCounters
  rw [recordBatchFailure_fail_count, h.1, h.2.1]
  omega

/-! ### Flush retry-loop lemmas -/

/-- If no attempt yields a non-429 answer, the retry loop fails the
whole batch. -/
theorem do_flush_attempts_exhausted (batch : List BatchItem)
    (l : List BatchResp) (st : SyncState) (c : Option (Finset String))
    (h : effectiveResp l = none) :
    do_flush_attempts batch l st c = (recordBatchFailure batch st, c) := by
  induction l generalizing st c with
  | nil => simp [do_flush_attempts]
  | cons r rest ih =>
    by_cases hr : r.status = 429
    · simp only [effectiveResp, hr, if_pos rfl] at h
      simp [do_flush_attempts, hr, ih _ _ h]
    · simp [effectiveResp, hr] at h

/-- If the first non-429 answer is not a 200, the retry loop fails the
whole batch. -/
theorem do_flush_attempts_httpErr (batch : List BatchItem)
    (l : List BatchResp) (st : SyncState) (c : Option (Finset String))
    (r : BatchResp) (h : effectiveResp l = some r) (h200 : ¬ r.status = 200) :
    do_flush_attempts batch l st c = (recordBatchFailure batch st, c) := by
  induction l generalizing st c with
  | nil => simp [effectiveResp] at h
  | cons a rest ih =>
    by_cases ha : a.status = 429
    · simp only [effectiveResp, ha, if_pos rfl] at h
      simp [do_flush_attempts, ha, ih _ _ h]
    · simp [effectiveResp, ha] at h
      subst h
      simp [do_flush_attempts, ha, h200]

/-- If the first non-429 answer is a 200, the retry loop records its
results positionally. -/
theorem do_flush_attempts_ok (batch : List BatchItem)
    (l : List BatchResp) (st : SyncState) (c : Option (Finset String))
    (r : BatchResp) (h : effectiveResp l = some r) (h200 : r.status = 200) :
    do_flush_attempts batch l st c = applyRecs (flushRecs r.results batch) st c := by
  induction l generalizing st c with
  | nil => simp [effectiveResp] at h
  | cons a rest ih =>
    by_cases ha : a.status = 429
    · simp only [effectiveResp, ha, if_pos rfl] at h
      simp [do_flush_attempts, ha, ih _ _ h]
    · simp [effectiveResp, ha] at h
      subst h
      simp [do_flush_attempts, ha, h200]

/-- Number of records of one flush: the shorter of the two lists. -/
theorem flushRecs_length (results : List ItemResult) (batch : List BatchItem) :
    (flushRecs results batch).length = min results.length batch.length := by
  simp [flushRecs]

/-- Under a covering response, a flush adds exactly the batch size to
the counter sum — whichever way the attempts went. -/
theorem do_flush_attempts_sum (batch : List BatchItem)
    (script : Nat → BatchResp) (st : SyncState) (c : Option (Finset String))
    (hcov : flushCovers script batch.length) :
    sumCounters (do_flush_attempts batch (attemptList script) st c).1 =
      sumCounters st + batch.length := by
  cases h : effectiveResp (attemptList script) with
  | none =>
    rw [do_flush_attempts_exhausted batch _ st c h]
    exact recordBatchFailure_sum batch st
  | some r =>
    by_cases h200 : r.status = 200
    · rw [do_flush_attempts_ok batch _ st c r h h200, applyRecs_sum,
        flushRecs_length]
      have := hcov r h h200
      omega
    · rw [do_flush_attempts_httpErr batch _ st c r h h200]
      exact recordBatchFailure_sum batch st

/-! ### Batch popping lemmas -/

/-- Popping an empty buffer yields no batches. -/
theorem popBatchesAux_nil (fuel : Nat) : popBatchesAux fuel [] = [] := by
  cases fuel <;> rfl

/-- Unfolding one pop from a nonempty buffer. -/
theorem popBatchesAux_cons (fuel : Nat) (l : List BatchItem) (h : l ≠ []) :
    popBatchesAux (fuel + 1) l =
      l.take BATCH_SIZE :: popBatchesAux fuel (l.drop BATCH_SIZE) := by
  cases l with
  | nil => exact absurd rfl h
  | cons x xs => rfl

/-- With enough fuel, the popped batches concatenate back to the
buffer: every buffered item lands in exactly one issued call, in FIFO
order. -/
theorem popBatchesAux_join (fuel : Nat) :
    ∀ l : List BatchItem, l.length ≤ fuel → (popBatchesAux fuel l).flatten = l := by
  induction fuel with
  | zero =>
    intro l hl
    rw [List.length_eq_zero.mp (Nat.le_zero.mp hl)]
    rfl
  | succ fuel ih =>
    intro l hl
    cases l with
    | nil => simp [popBatchesAux]
    | cons x xs =>
      rw [popBatchesAux_cons fuel _ (by simp), List.flatten_cons,
        ih _ (by simp [List.length_drop, BATCH_SIZE] at *; omega)]
      exact List.take_append_drop _ _

/-- The drained batches concatenate back to the buffer. -/
theorem batchesOf_join (buffer : List BatchItem) :
    (batchesOf buffer).flatten = buffer :=
  popBatchesAux_join buffer.length buffer le_rfl

/-- The batch sizes sum to the buffer size. -/
theorem batchesOf_length_sum (buffer : List BatchItem) :
    ((batchesOf buffer).map List.length).sum = buffer.length := by
  rw [← List.length_flatten, batchesOf_join]

/-! ### Drain lemmas -/

/-- Draining a sequence of batches whose flushes are all covered adds
exactly one counted outcome per drained item. -/
theorem drainBatches_sum (scripts : Nat → Nat → BatchResp) :
    ∀ (bs : List (List BatchItem)) (k : Nat) (st : SyncState)
      (c : Option (Finset String)),
      (∀ j, flushCovers (scripts (k + j)) ((bs.getD j []).length)) →
      sumCounters (drainBatches scripts k bs st c).1 =
        sumCounters st + (bs.map List.length).sum := by
  intro bs
  induction bs with
  | nil => intro k st c _; simp [drainBatches]
  | cons b rest ih =>
    intro k st c hcov
    have hhead : flushCovers (scripts k) b.length := by
      have := hcov 0
      simpa using this
    have htail : ∀ j, flushCovers (scripts (k + 1 + j)) ((rest.getD j []).length) := by
      intro j
      have := hcov (j + 1)
      rw [show k + (j + 1) = k + 1 + j by omega] at this
      simpa using this
    simp only [drainBatches]
    rw [ih (k + 1) _ _ htail, do_flush_attempts_sum b (scripts k) st c hhead]
    simp [List.map_cons, List.sum_cons]
    omega

/-! ### Positional and membership lemmas for flush records -/

/-- Unfolding one pair of the recording loop. -/
theorem flushRecs_cons (a : ItemResult) (as : List ItemResult)
    (b : BatchItem) (bs : List BatchItem) :
    flushRecs (a :: as) (b :: bs) = recOf a b :: flushRecs as bs := rfl

/-- `succIds` over a success record. -/
theorem succIds_cons_succ (i : String) (h : Option String) (n : String)
    (l : List FlushRec) :
    succIds (.succ i h n :: l) = i :: succIds l := by
  simp [succIds, List.filterMap_cons]

/-- `succIds` over a failure record. -/
theorem succIds_cons_fail (l : List FlushRec) :
    succIds (.fail :: l) = succIds l := by
  simp [succIds, List.filterMap_cons]

/-- `succNames` over a success record. -/
theorem succNames_cons_succ (i : String) (h : Option String) (n : String)
    (l : List FlushRec) :
    succNames (.succ i h n :: l) = n :: succNames l := by
  simp [succNames, List.filterMap_cons]

/-- `succNames` over a failure record. -/
theorem succNames_cons_fail (l : List FlushRec) :
    succNames (.fail :: l) = succNames l := by
  simp [succNames, List.filterMap_cons]

/-- `succHashes` over a success record carrying a nonempty hash. -/
theorem succHashes_cons_some (i : String) (v : String) (n : String)
    (l : List FlushRec) (hv : ¬ v = "") :
    succHashes (.succ i (some v) n :: l) = v :: succHashes l := by
  simp [succHashes, List.filterMap_cons, hv]

/-- `succHashes` over a success record with no hash. -/
theorem succHashes_cons_none (i : String) (n : String) (l : List FlushRec) :
    succHashes (.succ i none n :: l) = succHashes l := by
  simp [succHashes, List.filterMap_cons]

/-- `succHashes` over a success record with an empty hash. -/
theorem succHashes_cons_empty (i : String) (n : String) (l : List FlushRec) :
    succHashes (.succ i (some "") n :: l) = succHashes l := by
  simp [succHashes, List.filterMap_cons]

/-- `succHashes` over a failure record. -/
theorem succHashes_cons_fail (l : List FlushRec) :
    succHashes (.fail :: l) = succHashes l := by
  simp [succHashes, List.filterMap_cons]

/-- The `i`-th record of a flush is computed from the `i`-th response
entry and the `i`-th submitted item — correspondence is positional. -/
theorem flushRecs_get :
    ∀ (results : List ItemResult) (batch : List BatchItem) (i : Nat)
      (r : ItemResult) (it : BatchItem),
      results[i]? = some r → batch[i]? = some it →
      (flushRecs results batch)[i]? = some (recOf r it) := by
  intro results
  induction results with
  | nil => intro batch i r it hr _; simp at hr
  | cons a as ih =>
    intro batch i r it hr hb
    cases batch with
    | nil => simp at hb
    | cons b bs =>
      cases i with
      | zero =>
        simp at hr hb
        subst hr; subst hb
        simp [flushRecs_cons]
      | succ n =>
        simp at hr hb
        simpa [flushRecs_cons] using ih bs n r it hr hb

/-- An id in the success records comes from an item at a position the
response covered. -/
theorem mem_succIds :
    ∀ (results : List ItemResult) (batch : List BatchItem) (x : String),
      x ∈ succIds (flushRecs results batch) →
      ∃ q it, q < results.length ∧ batch[q]? = some it ∧ it.file_id = x := by
  intro results
  induction results with
  | nil => intro batch x h; simp [flushRecs, succIds] at h
  | cons a as ih =>
    intro batch x h
    cases batch with
    | nil => simp [flushRecs, succIds] at h
    | cons b bs =>
      rw [flushRecs_cons] at h
      have htail : x ∈ succIds (flushRecs as bs) →
          ∃ q it, q < (a :: as).length ∧ (b :: bs)[q]? = some it ∧
            it.file_id = x := by
        intro ht
        obtain ⟨q, it, hq, hget, hid⟩ := ih bs x ht
        exact ⟨q + 1, it, by simpa using hq, by simpa using hget, hid⟩
      by_cases ha : resultOk a = true
      · rw [show recOf a b = .succ b.file_id b.file_hash b.filename from by
          simp [recOf, ha], succIds_cons_succ, List.mem_cons] at h
        cases h with
        | inl he => exact ⟨0, b, by simp, by simp, he.symm⟩
        | inr ht => exact htail ht
      · rw [show recOf a b = .fail from by simp [recOf, ha],
          succIds_cons_fail] at h
        exact htail h

/-- A filename in the success records comes from an item at a covered
position. -/
theorem mem_succNames :
    ∀ (results : List ItemResult) (batch : List BatchItem) (x : String),
      x ∈ succNames (flushRecs results batch) →
      ∃ q it, q < results.length ∧ batch[q]? = some it ∧ it.filename = x := by
  intro results
  induction results with
  | nil => intro batch x h; simp [flushRecs, succNames] at h
  | cons a as ih =>
    intro batch x h
    cases batch with
    | nil => simp [flushRecs, succNames] at h
    | cons b bs =>
      rw [flushRecs_cons] at h
      have htail : x ∈ succNames (flushRecs as bs) →
          ∃ q it, q < (a :: as).length ∧ (b :: bs)[q]? = some it ∧
            it.filename = x := by
        intro ht
        obtain ⟨q, it, hq, hget, hid⟩ := ih bs x ht
        exact ⟨q + 1, it, by simpa using hq, by simpa using hget, hid⟩
      by_cases ha : resultOk a = true
      · rw [show recOf a b = .succ b.file_id b.file_hash b.filename from by
          simp [recOf, ha], succNames_cons_succ, List.mem_cons] at h
        cases h with
        | inl he => exact ⟨0, b, by simp, by simp, he.symm⟩
        | inr ht => exact htail ht
      · rw [show recOf a b = .fail from by simp [recOf, ha],
          succNames_cons_fail] at h
        exact htail h

/-- A hash in the success records comes from an item at a covered
position. -/
theorem mem_succHashes :
    ∀ (results : List ItemResult) (batch : List BatchItem) (x : String),
      x ∈ succHashes (flushRecs results batch) →
      ∃ q it, q < results.length ∧ batch[q]? = some it ∧ it.file_hash = some x := by
  intro results
  induction results with
  | nil => intro batch x h; simp [flushRecs, succHashes] at h
  | cons a as ih =>
    intro batch x h
    cases batch with
    | nil => simp [flushRecs, succHashes] at h
    | cons b bs =>
      rw [flushRecs_cons] at h
      have htail : x ∈ succHashes (flushRecs as bs) →
          ∃ q it, q < (a :: as).length ∧ (b :: bs)[q]? = some it ∧
            it.file_hash = some x := by
        intro ht
        obtain ⟨q, it, hq, hget, hid⟩ := ih bs x ht
        exact ⟨q + 1, it, by simpa using hq, by simpa using hget, hid⟩
      by_cases ha : resultOk a = true
      · rw [show recOf a b = .succ b.file_id b.file_hash b.filename from by
          simp [recOf, ha]] at h
        cases hb : b.file_hash with
        | none =>
          rw [hb, succHashes_cons_none] at h
          exact htail h
        | some v =>
          by_cases hv : v = ""
          · rw [hb, hv, succHashes_cons_empty] at h
            exact htail h
          · rw [hb, succHashes_cons_some _ _ _ _ hv, List.mem_cons] at h
            cases h with
            | inl he => exact ⟨0, b, by simp, by simp, by rw [hb, he]⟩
            | inr ht => exact htail ht
      · rw [show recOf a b = .fail from by simp [recOf, ha],
          succHashes_cons_fail] at h
        exact htail h

/-- Conversely, a covered item with a success status has its id in the
success records. -/
theorem succIds_mem :
    ∀ (results : List ItemResult) (batch : List BatchItem) (q : Nat)
      (r : ItemResult) (it : BatchItem),
      results[q]? = some r → batch[q]? = some it → resultOk r = true →
      it.file_id ∈ succIds (flushRecs results batch) := by
  intro results
  induction results with
  | nil => intro batch q r it hr _ _; simp at hr
  | cons a as ih =>
    intro batch q r it hr hb hok
    cases batch with
    | nil => simp at hb
    | cons b bs =>
      cases q with
      | zero =>
        simp at hr hb
        subst hr; subst hb
        rw [flushRecs_cons, show recOf a b = .succ b.file_id b.file_hash b.filename
          from by simp [recOf, hok], succIds_cons_succ]
        simp
      | succ n =>
        simp at hr hb
        have hmem := ih bs n r it hr hb hok
        rw [flushRecs_cons]
        by_cases ha : resultOk a = true
        · rw [show recOf a b = .succ b.file_id b.file_hash b.filename from by
            simp [recOf, ha], succIds_cons_succ]
          exact List.mem_cons_of_mem _ hmem
        · rw [show recOf a b = .fail from by simp [recOf, ha], succIds_cons_fail]
          exact hmem

/-- Conversely, a covered item with a success status has its filename
in the success records. -/
theorem succNames_mem :
    ∀ (results : List ItemResult) (batch : List BatchItem) (q : Nat)
      (r : ItemResult) (it : BatchItem),
      results[q]? = some r → batch[q]? = some it → resultOk r = true →
      it.filename ∈ succNames (flushRecs results batch) := by
  intro results
  induction results with
  | nil => intro batch q r it hr _ _; simp at hr
  | cons a as ih =>
    intro batch q r it hr hb hok
    cases batch with
    | nil => simp at hb
    | cons b bs =>
      cases q with
      | zero =>
        simp at hr hb
        subst hr; subst hb
        rw [flushRecs_cons, show recOf a b = .succ b.file_id b.file_hash b.filename
          from by simp [recOf, hok], succNames_cons_succ]
        simp
      | succ n =>
        simp at hr hb
        have hmem := ih bs n r it hr hb hok
        rw [flushRecs_cons]
        by_cases ha : resultOk a = true
        · rw [show recOf a b = .succ b.file_id b.file_hash b.filename from by
            simp [recOf, ha], succNames_cons_succ]
          exact List.mem_cons_of_mem _ hmem
        · rw [show recOf a b = .fail from by simp [recOf, ha], succNames_cons_fail]
          exact hmem

/-- Success count of a flush, in terms of the response statuses alone. -/
theorem countP_isSucc_flushRecs :
    ∀ (results : List ItemResult) (batch : List BatchItem),
      (flushRecs results batch).countP FlushRec.isSucc
        = (results.take batch.length).countP (fun r => resultOk r) := by
  intro results
  induction results with
  | nil => intro batch; simp [flushRecs]
  | cons a as ih =>
    intro batch
    cases batch with
    | nil => simp [flushRecs]
    | cons b bs =>
      rw [flushRecs_cons]
      simp only [List.countP_cons, List.length_cons, List.take_succ_cons]
      rw [ih bs]
      by_cases ha : resultOk a = true <;>
        simp [recOf, ha, FlushRec.isSucc]

/-- Failure count of a flush, in terms of the response statuses alone. -/
theorem countP_isFail_flushRecs :
    ∀ (results : List ItemResult) (batch : List BatchItem),
      (flushRecs results batch).countP (fun x => ! x.isSucc)
        = (results.take batch.length).countP (fun r => ! resultOk r) := by
  intro results
  induction results with
  | nil => intro batch; simp [flushRecs]
  | cons a as ih =>
    intro batch
    cases batch with
    | nil => simp [flushRecs]
    | cons b bs =>
      rw [flushRecs_cons]
      simp only [List.countP_cons, List.length_cons, List.take_succ_cons]
      rw [ih bs]
      by_cases ha : resultOk a = true <;>
        simp [recOf, ha, FlushRec.isSucc]

/-! ### Simple state lemmas -/

/-- `record_failure` adds one to the counter sum. -/
theorem record_failure_sum (s : SyncState) :
    sumCounters s.record_failure = sumCounters s + 1 := by
  simp [sumCounters, SyncState.record_failure]
  omega

/-- `record_skip` adds one to the counter sum. -/
theorem record_skip_sum (s : SyncState) :
    sumCounters s.record_skip = sumCounters s + 1 := by
  simp [sumCounters, SyncState.record_skip]
  omega

/-- `flush` (a forced persist) leaves every counter alone. -/
theorem flush_sumCounters (s : SyncState) :
    sumCounters s.flush = sumCounters s := rfl

/-- `_handle_interrupt` never touches the counters. -/
theorem handleInterrupt_sum (s : SyncState) :
    sumCounters (handleInterrupt s).1 = sumCounters s := by
  unfold handleInterrupt
  split <;> rfl

/-- After `_handle_interrupt` the shutdown event is set. -/
theorem handleInterrupt_shutdown (s : SyncState) :
    (handleInterrupt s).1.shutdown = true := by
  unfold handleInterrupt
  split <;> simp_all

/-! ### Worker lemmas -/

/-- A worker that sees the shutdown event claims nothing: it returns at
once, leaving the state untouched, downloading nothing and handing
nothing to the batch collector. -/
theorem process_one_file_shutdown (f : FileMeta) (mode : String) (env : ItemEnv)
    (hashOf : List Nat → String) (st : SyncState) (cache : Option (Finset String))
    (h : st.shutdown = true) :
    process_one_file f mode env hashOf st cache = ⟨.skipped, st, none, false⟩ := by
  simp [process_one_file, h]

/-- `uploadAndEnqueue` never changes the shutdown flag. -/
theorem uploadAndEnqueue_state_shutdown (f : FileMeta) (env : ItemEnv)
    (fh : Option String) (st : SyncState) :
    (uploadAndEnqueue f env fh st).state.shutdown = st.shutdown := by
  unfold uploadAndEnqueue
  split
  · rfl
  split <;> rfl

/-- Accounting for `uploadAndEnqueue`: exactly one counted outcome or
exactly one buffered commit. -/
theorem uploadAndEnqueue_sum (f : FileMeta) (env : ItemEnv)
    (fh : Option String) (st : SyncState) :
    sumCounters (uploadAndEnqueue f env fh st).state
      + (uploadAndEnqueue f env fh st).enqueued.toList.length
    = sumCounters st + 1 := by
  unfold uploadAndEnqueue
  split
  · simp [record_failure_sum]
  split
  · simp [record_failure_sum]
  · simp

/-- A worker never changes the shutdown flag. -/
theorem process_one_file_state_shutdown (f : FileMeta) (mode : String)
    (env : ItemEnv) (hashOf : List Nat → String) (st : SyncState)
    (cache : Option (Finset String)) :
    (process_one_file f mode env hashOf st cache).state.shutdown = st.shutdown := by
  unfold process_one_file
  split
  · rfl
  split
  · rfl
  split
  · rfl
  split
  · split
    · rfl
    · exact uploadAndEnqueue_state_shutdown ..
  · exact uploadAndEnqueue_state_shutdown ..

/-- Claim accounting for one worker call: a claimed item contributes
exactly one counted outcome or exactly one buffered commit; an
unclaimed item contributes nothing. -/
theorem process_one_file_sum (f : FileMeta) (mode : String) (env : ItemEnv)
    (hashOf : List Nat → String) (st : SyncState) (cache : Option (Finset String)) :
    sumCounters (process_one_file f mode env hashOf st cache).state
      + (process_one_file f mode env hashOf st cache).enqueued.toList.length
    = sumCounters st + (if st.shutdown then 0 else 1) := by
  unfold process_one_file
  split
  · simp_all
  next hs =>
    simp only [Bool.not_eq_true] at hs
    split
    · simp [hs, record_skip_sum]
    split
    · simp [hs, record_failure_sum]
    split
    · split
      · simp [hs, record_skip_sum]
      · simp [hs, uploadAndEnqueue_sum]
    · simp [hs, uploadAndEnqueue_sum]

/-! ### Run lemmas -/

/-- Pool accounting: counted outcomes plus buffered commits grow by one
per claimed item. -/
theorem runEvents_sum (hashOf : List Nat → String) (mode : String)
    (cache : Option (Finset String)) :
    ∀ (events : List RunEvent) (st : SyncState) (buf : List BatchItem),
      sumCounters (runEvents hashOf mode cache events st buf).1
        + (runEvents hashOf mode cache events st buf).2.length
      = sumCounters st + buf.length + claimedCount events st.shutdown := by
  intro events
  induction events with
  | nil => intro st buf; simp [runEvents, claimedCount]
  | cons e rest ih =>
    intro st buf
    cases e with
    | interrupt =>
      simp only [runEvents, claimedCount]
      rw [ih, handleInterrupt_sum, handleInterrupt_shutdown]
    | item f env =>
      simp only [runEvents, claimedCount]
      rw [ih]
      have hsum := process_one_file_sum f mode env hashOf st cache
      have hsd := process_one_file_state_shutdown f mode env hashOf st cache
      rw [hsd, List.length_append]
      cases h : st.shutdown <;> simp [h] at hsum ⊢ <;> omega

/-- Once set, the shutdown flag stays set through the rest of the
run's events. -/
theorem runEvents_shutdown_mono (hashOf : List Nat → String) (mode : String)
    (cache : Option (Finset String)) :
    ∀ (events : List RunEvent) (st : SyncState) (buf : List BatchItem),
      st.shutdown = true →
      (runEvents hashOf mode cache events st buf).1.shutdown = true := by
  intro events
  induction events with
  | nil => intro st buf h; simpa [runEvents] using h
  | cons e rest ih =>
    intro st buf h
    cases e with
    | interrupt =>
      simp only [runEvents]
      exact ih _ _ (handleInterrupt_shutdown st)
    | item f env =>
      simp only [runEvents]
      exact ih _ _ (by rw [process_one_file_state_shutdown]; exact h)

/-- When no interrupt arrives and the run starts live, every submitted
item is claimed. -/
theorem claimedCount_no_interrupt :
    ∀ events : List RunEvent, (∀ e ∈ events, e ≠ RunEvent.interrupt) →
      claimedCount events false = totalItems events := by
  intro events
  induction events with
  | nil => intro _; rfl
  | cons e rest ih =>
    intro h
    cases e with
    | interrupt => exact absurd rfl (h _ (by simp))
    | item f env =>
      simp only [claimedCount, totalItems, List.countP_cons]
      rw [show claimedCount rest false = totalItems rest from
        ih fun e he => h e (by simp [he])]
      simp [totalItems]
      omega

/-- End-to-end accounting: under covering batch responses, the whole
run (pool, drain, final flush) records exactly one outcome per claimed
item. -/
theorem mainRun_sum (hashOf : List Nat → String) (mode : String)
    (cache : Option (Finset String)) (events : List RunEvent)
    (scripts : Nat → Nat → BatchResp) (st0 : SyncState)
    (hcov : ∀ j, flushCovers (scripts j)
      (((batchesOf (runEvents hashOf mode cache events st0 []).2).getD j []).length)) :
    sumCounters (mainRun hashOf mode cache events scripts st0).1
      = sumCounters st0 + claimedCount events st0.shutdown := by
  unfold mainRun drain
  rw [flush_sumCounters]
  rw [drainBatches_sum scripts _ 0 _ _ (by simpa using hcov)]
  rw [batchesOf_length_sum]
  have h := runEvents_sum hashOf mode cache events st0 []
  simp at h
  omega

end Wind

namespace Wind

/-! ## Claim C9 -/

/-- C9 (counterexample): the claim says recording an id already present
in the ledger is a no-op with counters unchanged; in the code
`record_success` unconditionally increments `success_count`, so on a
state already holding id `"a"` the counter changes. -/
theorem claim9_counterexample :
    (ledgerState.record_success "a" none).success_count
      ≠ ledgerState.success_count := by
  decide

/-- C9 (amended): recording an already-present id (and, when given, an
already-present hash) leaves both ledger sets — hence any serialised
snapshot of them — unchanged, but it is not a no-op: the success
counter still increases by one. -/
theorem claim9_amended (s : SyncState) (i : String) (h : Option String)
    (hi : i ∈ s.uploaded_ids)
    (hh : ∀ v, h = some v → v ∈ s.uploaded_hashes) :
    (s.record_success i h).uploaded_ids = s.uploaded_ids ∧
    (s.record_success i h).uploaded_hashes = s.uploaded_hashes ∧
    serializeSet (s.record_success i h).uploaded_ids
      = serializeSet s.uploaded_ids ∧
    serializeSet (s.record_success i h).uploaded_hashes
      = serializeSet s.uploaded_hashes ∧
    (s.record_success i h).success_count = s.success_count + 1 := by
  have h1 : (s.record_success i h).uploaded_ids = s.uploaded_ids := by
    rw [record_success_ids, Finset.insert_eq_self.mpr hi]
  have h2 : (s.record_success i h).uploaded_hashes = s.uploaded_hashes := by
    rw [record_success_hashes]
    cases h with
    | none => rfl
    | some v =>
      by_cases hv : v = ""
      · simp [hv]
      · simp only [hv, if_neg hv]
        exact Finset.insert_eq_self.mpr (hh v rfl)
  exact ⟨h1, h2, by rw [h1], by rw [h2], record_success_success_count ..⟩

/-- C9 (witness): the amended statement at a state already holding the
id and the hash. -/
theorem claim9_witness :
    ("a" ∈ ledgerState.uploaded_ids) ∧
    ((ledgerState.record_success "a" (some "h")).uploaded_ids
        = ledgerState.uploaded_ids ∧
      (ledgerState.record_success "a" (some "h")).uploaded_hashes
        = ledgerState.uploaded_hashes ∧
      serializeSet (ledgerState.record_success "a" (some "h")).uploaded_ids
        = serializeSet ledgerState.uploaded_ids ∧
      serializeSet (ledgerState.record_success "a" (some "h")).uploaded_hashes
        = serializeSet ledgerState.uploaded_hashes ∧
      (ledgerState.record_success "a" (some "h")).success_count
        = ledgerState.success_count + 1) :=
  ⟨by decide,
    claim9_amended ledgerState "a" (some "h") (by decide)
      (fun v hv => by cases hv; decide)⟩

/-! ## Claim C5 -/

/-- C5: when a group-commit's retries are exhausted or its first
effective answer is a non-retryable error (no HTTP-200 is ever
consumed), every item of the batch is marked failed, and nothing is
recorded succeeded or added to the ledger sets or the name index. -/
theorem claim5_theorem (batch : List BatchItem) (script : Nat → BatchResp)
    (st : SyncState) (c : Option (Finset String))
    (hfail : ∀ r, effectiveResp (attemptList script) = some r → ¬ r.status = 200) :
    (do_flush_attempts batch (attemptList script) st c).1.fail_count
        = st.fail_count + batch.length ∧
    (do_flush_attempts batch (attemptList script) st c).1.success_count
        = st.success_count ∧
    (do_flush_attempts batch (attemptList script) st c).1.uploaded_ids
        = st.uploaded_ids ∧
    (do_flush_attempts batch (attemptList script) st c).1.uploaded_hashes
        = st.uploaded_hashes ∧
    (do_flush_attempts batch (attemptList script) st c).2 = c := by
  have he : do_flush_attempts batch (attemptList script) st c
      = (recordBatchFailure batch st, c) := by
    cases h : effectiveResp (attemptList script) with
    | none => exact do_flush_attempts_exhausted batch _ st c h
    | some r => exact do_flush_attempts_httpErr batch _ st c r h (hfail r h)
  rw [he]
  have hr := recordBatchFailure_rest batch st
  exact ⟨recordBatchFailure_fail_count batch st, hr.1, hr.2.2.1, hr.2.2.2.1, rfl⟩

/-- C5 (witness): a two-item batch against a server that answers
HTTP 500: both items failed, nothing recorded succeeded. -/
theorem claim5_witness :
    (∀ r, effectiveResp (attemptList fun _ => (⟨500, []⟩ : BatchResp)) = some r →
      ¬ r.status = 200) ∧
    ((do_flush_attempts [sampleBatchItem 0, sampleBatchItem 1]
        (attemptList fun _ => ⟨500, []⟩) freshState (some ∅)).1.fail_count
        = freshState.fail_count + [sampleBatchItem 0, sampleBatchItem 1].length ∧
      (do_flush_attempts [sampleBatchItem 0, sampleBatchItem 1]
        (attemptList fun _ => ⟨500, []⟩) freshState (some ∅)).1.success_count
        = freshState.success_count ∧
      (do_flush_attempts [sampleBatchItem 0, sampleBatchItem 1]
        (attemptList fun _ => ⟨500, []⟩) freshState (some ∅)).1.uploaded_ids
        = freshState.uploaded_ids ∧
      (do_flush_attempts [sampleBatchItem 0, sampleBatchItem 1]
        (attemptList fun _ => ⟨500, []⟩) freshState (some ∅)).1.uploaded_hashes
        = freshState.uploaded_hashes ∧
      (do_flush_attempts [sampleBatchItem 0, sampleBatchItem 1]
        (attemptList fun _ => ⟨500, []⟩) freshState (some ∅)).2 = some ∅) :=
  ⟨fun r hr => by
      rw [show effectiveResp (attemptList fun _ => (⟨500, []⟩ : BatchResp))
          = some ⟨500, []⟩ from rfl] at hr
      cases hr
      decide,
    claim5_theorem [sampleBatchItem 0, sampleBatchItem 1] _ freshState (some ∅)
      (fun r hr => by
        rw [show effectiveResp (attemptList fun _ => (⟨500, []⟩ : BatchResp))
            = some ⟨500, []⟩ from rfl] at hr
        cases hr
        decide)⟩

end Wind

namespace Wind

/-! ## Claim C2 -/

/-- C2: a buffer of 120 pending commits is flushed in exactly 3
group-commit calls of sizes 50, 50 and 20, popped FIFO (the calls
concatenate back to the buffer in order), and within each call the
response entries map positionally onto the submitted items. -/
theorem claim2_theorem (buf : List BatchItem) (h : buf.length = 120) :
    batchesOf buf = [buf.take BATCH_SIZE,
      (buf.drop BATCH_SIZE).take BATCH_SIZE,
      (buf.drop BATCH_SIZE).drop BATCH_SIZE] ∧
    (batchesOf buf).map List.length = [50, 50, 20] ∧
    (batchesOf buf).flatten = buf ∧
    (∀ b, b ∈ batchesOf buf → ∀ (results : List ItemResult) (i : Nat) r it,
      results[i]? = some r → b[i]? = some it →
      (flushRecs results b)[i]? = some (recOf r it)) := by
  have hne : buf ≠ [] := by intro e; subst e; simp at h
  have e1 : batchesOf buf
      = buf.take BATCH_SIZE :: popBatchesAux 119 (buf.drop BATCH_SIZE) := by
    unfold batchesOf
    rw [h, show (120 : Nat) = 119 + 1 from rfl]
    exact popBatchesAux_cons 119 buf hne
  have hd1 : (buf.drop BATCH_SIZE).length = 70 := by
    simp [h, BATCH_SIZE]
  have hne1 : buf.drop BATCH_SIZE ≠ [] := by
    intro e; rw [e] at hd1; simp at hd1
  have e2 : popBatchesAux 119 (buf.drop BATCH_SIZE)
      = (buf.drop BATCH_SIZE).take BATCH_SIZE ::
        popBatchesAux 118 ((buf.drop BATCH_SIZE).drop BATCH_SIZE) := by
    rw [show (119 : Nat) = 118 + 1 from rfl]
    exact popBatchesAux_cons 118 _ hne1
  have hd2 : ((buf.drop BATCH_SIZE).drop BATCH_SIZE).length = 20 := by
    simp [h, BATCH_SIZE]
  have hne2 : (buf.drop BATCH_SIZE).drop BATCH_SIZE ≠ [] := by
    intro e; rw [e] at hd2; simp at hd2
  have e3 : popBatchesAux 118 ((buf.drop BATCH_SIZE).drop BATCH_SIZE)
      = ((buf.drop BATCH_SIZE).drop BATCH_SIZE).take BATCH_SIZE ::
        popBatchesAux 117
          (((buf.drop BATCH_SIZE).drop BATCH_SIZE).drop BATCH_SIZE) := by
    rw [show (118 : Nat) = 117 + 1 from rfl]
    exact popBatchesAux_cons 117 _ hne2
  have hd3 : ((buf.drop BATCH_SIZE).drop BATCH_SIZE).drop BATCH_SIZE = [] := by
    apply List.drop_eq_nil_of_le
    rw [hd2]
    norm_num [BATCH_SIZE]
  have ht3 : ((buf.drop BATCH_SIZE).drop BATCH_SIZE).take BATCH_SIZE
      = (buf.drop BATCH_SIZE).drop BATCH_SIZE := by
    apply List.take_of_length_le
    rw [hd2]
    norm_num [BATCH_SIZE]
  have hall : batchesOf buf = [buf.take BATCH_SIZE,
      (buf.drop BATCH_SIZE).take BATCH_SIZE,
      (buf.drop BATCH_SIZE).drop BATCH_SIZE] := by
    rw [e1, e2, e3, hd3, popBatchesAux_nil, ht3]
  refine ⟨hall, ?_, batchesOf_join buf, ?_⟩
  · rw [hall]
    simp [List.length_take, List.length_drop, h, BATCH_SIZE]
  · intro b _ results i r it hr hb
    exact flushRecs_get results b i r it hr hb

/-- C2 (witness): a concrete 120-item buffer. -/
theorem claim2_witness :
    ((List.range 120).map sampleBatchItem).length = 120 ∧
    (batchesOf ((List.range 120).map sampleBatchItem)).map List.length
      = [50, 50, 20] :=
  ⟨by simp, (claim2_theorem _ (by simp)).2.1⟩

end Wind

namespace Wind

/-! ## Claim C3 -/

/-- C3: a 50-item group-commit whose response reports failure statuses
exactly at positions 3 and 47 records exactly 48 successes (each with
its id added to the ledger via `record_success` and its filename added
to the name index) and exactly 2 failures, per item — never
all-or-nothing. -/
theorem claim3_theorem (batch : List BatchItem) (st : SyncState)
    (cs : Finset String) (hlen : batch.length = 50) :
    (applyRecs (flushRecs c3Results batch) st (some cs)).1.success_count
        = st.success_count + 48 ∧
    (applyRecs (flushRecs c3Results batch) st (some cs)).1.fail_count
        = st.fail_count + 2 ∧
    (∀ q it, q < 50 → ¬ (q = 3 ∨ q = 47) → batch[q]? = some it →
      it.file_id ∈
        (applyRecs (flushRecs c3Results batch) st (some cs)).1.uploaded_ids ∧
      it.filename ∈
        ((applyRecs (flushRecs c3Results batch) st (some cs)).2.getD ∅)) ∧
    (flushRecs c3Results batch)[3]? = some .fail ∧
    (flushRecs c3Results batch)[47]? = some .fail := by
  have hc3len : c3Results.length = 50 := by simp [c3Results]
  have htake : c3Results.take batch.length = c3Results := by
    apply List.take_of_length_le
    omega
  have hget : ∀ q, q < 50 →
      c3Results[q]? = some (if q = 3 ∨ q = 47 then failItemResult else okItemResult) := by
    intro q hq
    simp [c3Results, List.getElem?_map, List.getElem?_range, hq]
  refine ⟨?_, ?_, ?_, ?_, ?_⟩
  · rw [applyRecs_success_count, countP_isSucc_flushRecs, htake]
    norm_num [show (c3Results.countP fun r => resultOk r) = 48 from by decide]
  · rw [applyRecs_fail_count, countP_isFail_flushRecs, htake]
    norm_num [show (c3Results.countP fun r => ! resultOk r) = 2 from by decide]
  · intro q it hq hnot hit
    have hr : c3Results[q]? = some okItemResult := by
      rw [hget q hq, if_neg hnot]
    have hok : resultOk okItemResult = true := by decide
    constructor
    · rw [applyRecs_ids]
      exact Finset.mem_union_right _
        (List.mem_toFinset.mpr (succIds_mem c3Results batch q _ it hr hit hok))
    · rw [applyRecs_cache]
      exact Finset.mem_union_right _
        (List.mem_toFinset.mpr (succNames_mem c3Results batch q _ it hr hit hok))
  · have h3 : (3 : Nat) < batch.length := by omega
    have hr : c3Results[3]? = some failItemResult := by
      rw [hget 3 (by omega)]
      simp
    have := flushRecs_get c3Results batch 3 failItemResult batch[3] hr
      (List.getElem?_eq_getElem h3)
    rw [this]
    simp [recOf, show resultOk failItemResult = false from by decide]
  · have h47 : (47 : Nat) < batch.length := by omega
    have hr : c3Results[47]? = some failItemResult := by
      rw [hget 47 (by omega)]
      simp
    have := flushRecs_get c3Results batch 47 failItemResult batch[47] hr
      (List.getElem?_eq_getElem h47)
    rw [this]
    simp [recOf, show resultOk failItemResult = false from by decide]

/-- C3 (witness): the scenario at a concrete 50-item batch and a fresh
state. -/
theorem claim3_witness :
    ((List.range 50).map sampleBatchItem).length = 50 ∧
    (applyRecs (flushRecs c3Results ((List.range 50).map sampleBatchItem))
        freshState (some ∅)).1.success_count = freshState.success_count + 48 ∧
    (applyRecs (flushRecs c3Results ((List.range 50).map sampleBatchItem))
        freshState (some ∅)).1.fail_count = freshState.fail_count + 2 :=
  ⟨by simp,
    (claim3_theorem ((List.range 50).map sampleBatchItem) freshState ∅ (by simp)).1,
    (claim3_theorem ((List.range 50).map sampleBatchItem) freshState ∅ (by simp)).2.1⟩

end Wind

namespace Wind

/-! ## Claim C10 -/

/-- C10: when a group-commit response carries fewer result entries than
the batch has items, the surplus items (positions at or beyond the
response length) get no recorded outcome at all: the total of success
and failure records equals the response length only, and a surplus
item's id, hash and filename are not added to the ledger or the name
index (uniqueness of the surplus item's fields among the covered
positions assumed). -/
theorem claim10_theorem (batch : List BatchItem) (results : List ItemResult)
    (st : SyncState) (cs : Finset String) (p : Nat) (it : BatchItem)
    (hshort : results.length < batch.length)
    (hp : results.length ≤ p) (hit : batch[p]? = some it)
    (hid_new : it.file_id ∉ st.uploaded_ids)
    (hid_uniq : ∀ q jt, q < results.length → batch[q]? = some jt →
      jt.file_id ≠ it.file_id)
    (hname_new : it.filename ∉ cs)
    (hname_uniq : ∀ q jt, q < results.length → batch[q]? = some jt →
      jt.filename ≠ it.filename)
    (hhash_new : ∀ v, it.file_hash = some v → v ∉ st.uploaded_hashes)
    (hhash_uniq : ∀ q jt, q < results.length → batch[q]? = some jt →
      ∀ v, it.file_hash = some v → jt.file_hash ≠ some v) :
    (applyRecs (flushRecs results batch) st (some cs)).1.success_count
        + (applyRecs (flushRecs results batch) st (some cs)).1.fail_count
      = st.success_count + st.fail_count + results.length ∧
    it.file_id ∉
      (applyRecs (flushRecs results batch) st (some cs)).1.uploaded_ids ∧
    (∀ v, it.file_hash = some v →
      v ∉ (applyRecs (flushRecs results batch) st (some cs)).1.uploaded_hashes) ∧
    it.filename ∉
      ((applyRecs (flushRecs results batch) st (some cs)).2.getD ∅) := by
  have hlen : (flushRecs results batch).length = results.length := by
    rw [flushRecs_length]
    omega
  refine ⟨?_, ?_, ?_, ?_⟩
  · have hsum := applyRecs_sum (flushRecs results batch) st (some cs)
    have hskip := applyRecs_skip_count (flushRecs results batch) st (some cs)
    rw [hlen] at hsum
    unfold sumCounters at hsum
    omega
  · rw [applyRecs_ids]
    intro hmem
    cases Finset.mem_union.mp hmem with
    | inl hin => exact hid_new hin
    | inr hin =>
      obtain ⟨q, jt, hq, hget, heq⟩ :=
        mem_succIds results batch it.file_id (List.mem_toFinset.mp hin)
      exact hid_uniq q jt hq hget heq
  · intro v hv
    rw [applyRecs_hashes]
    intro hmem
    cases Finset.mem_union.mp hmem with
    | inl hin => exact hhash_new v hv hin
    | inr hin =>
      obtain ⟨q, jt, hq, hget, heq⟩ :=
        mem_succHashes results batch v (List.mem_toFinset.mp hin)
      exact hhash_uniq q jt hq hget v hv heq
  · rw [applyRecs_cache]
    intro hmem
    cases Finset.mem_union.mp hmem with
    | inl hin => exact hname_new hin
    | inr hin =>
      obtain ⟨q, jt, hq, hget, heq⟩ :=
        mem_succNames results batch it.filename (List.mem_toFinset.mp hin)
      exact hname_uniq q jt hq hget heq

/-- C10 (witness): a two-item batch whose response has one entry: the
second item is neither counted nor added anywhere. -/
theorem claim10_witness :
    ([okItemResult].length < [sampleBatchItem 0, sampleBatchItem 1].length) ∧
    ((applyRecs (flushRecs [okItemResult] [sampleBatchItem 0, sampleBatchItem 1])
        freshState (some ∅)).1.success_count
        + (applyRecs (flushRecs [okItemResult] [sampleBatchItem 0, sampleBatchItem 1])
            freshState (some ∅)).1.fail_count
      = freshState.success_count + freshState.fail_count + [okItemResult].length ∧
      (sampleBatchItem 1).file_id ∉
        (applyRecs (flushRecs [okItemResult] [sampleBatchItem 0, sampleBatchItem 1])
          freshState (some ∅)).1.uploaded_ids) := by
  have h := claim10_theorem [sampleBatchItem 0, sampleBatchItem 1] [okItemResult]
    freshState ∅ 1 (sampleBatchItem 1)
    (by decide) (by decide) rfl
    (by decide)
    (fun q jt hq hget => by
      cases q with
      | zero =>
        have : sampleBatchItem 0 = jt := Option.some.inj hget
        subst this
        decide
      | succ n => simp at hq)
    (by decide)
    (fun q jt hq hget => by
      cases q with
      | zero =>
        have : sampleBatchItem 0 = jt := Option.some.inj hget
        subst this
        decide
      | succ n => simp at hq)
    (fun v hv => by cases hv)
    (fun q jt hq hget v hv => by cases hv)
  exact ⟨by decide, h.1, h.2.1⟩

end Wind

namespace Wind

/-! ## Claim C4 -/

/-- C4 (counterexample): the claim says any rate-limit or 5xx response
to a download or single-item call is retried up to 3 attempts with
delays `base` and `2×base` only.  In the code `photos_upload_bytes`
gives up after a single attempt on HTTP 500 (no retry, no delay), and
a run of 429s sleeps a third time (`4×base`) after the final attempt. -/
theorem claim4_counterexample :
    photos_upload_bytes (fun _ => ⟨500, ""⟩) = (none, 1, []) ∧
    (photos_upload_bytes (fun _ => ⟨500, ""⟩)).2.1 ≠ 3 ∧
    photos_upload_bytes (fun _ => ⟨429, ""⟩) = (none, 3, [2, 4, 8]) ∧
    (photos_upload_bytes (fun _ => ⟨429, ""⟩)).2.2
      ≠ [RETRY_BASE_DELAY, 2 * RETRY_BASE_DELAY] := by
  norm_num [photos_upload_bytes, uploadLoop, MAX_RETRIES, RETRY_BASE_DELAY]

/-- C4 (amended): only HTTP 429 is treated as transient by the
single-item upload call: three 429s mean exactly 3 attempts with sleeps
`base`, `2×base` and a final `4×base`, then failure; any other non-200
status (including 5xx) fails after exactly 1 attempt with no delay;
429 then 200 means exactly 2 attempts, one `base` delay and success.
A failed download is never retried: the worker marks the item failed
at once. -/
theorem claim4_amended (resp : Nat → HttpResp) (c : Nat) (t : String) :
    ((∀ i, (resp i).status = 429) →
      photos_upload_bytes resp
        = (none, 3, [RETRY_BASE_DELAY, 2 * RETRY_BASE_DELAY,
            4 * RETRY_BASE_DELAY])) ∧
    ((resp 0).status = c → ¬ c = 200 → ¬ c = 429 →
      photos_upload_bytes resp = (none, 1, [])) ∧
    ((resp 0).status = 429 → (resp 1).status = 200 → (resp 1).body = t →
      photos_upload_bytes resp = (some t, 2, [RETRY_BASE_DELAY])) ∧
    (∀ (f : FileMeta) (mode : String) (hashOf : List Nat → String)
      (st : SyncState) (cache : Option (Finset String)) (err : String)
      (ur : Nat → HttpResp),
      st.shutdown = false → cacheContains cache f.name = false →
      process_one_file f mode ⟨.error err, ur⟩ hashOf st cache
        = ⟨.failed, st.record_failure, none, true⟩) := by
  refine ⟨?_, ?_, ?_, ?_⟩
  · intro h
    norm_num [photos_upload_bytes, uploadLoop, MAX_RETRIES, h 0, h 1, h 2,
      RETRY_BASE_DELAY]
  · intro h hc200 hc429
    rw [photos_upload_bytes, MAX_RETRIES]
    rw [show (3 : Nat) = 2 + 1 from rfl]
    rw [uploadLoop]
    simp [h, hc200, hc429]
  · intro h0 h1 hb
    norm_num [photos_upload_bytes, uploadLoop, MAX_RETRIES, h0, h1, hb,
      RETRY_BASE_DELAY]
  · intro f mode hashOf st cache err ur hs hc
    simp [process_one_file, hs, hc]

/-- C4 (witness): the amended behaviour at concrete response
sequences. -/
theorem claim4_witness :
    (∀ i : Nat, ((fun _ : Nat => (⟨429, ""⟩ : HttpResp)) i).status = 429) ∧
    photos_upload_bytes (fun _ => (⟨429, ""⟩ : HttpResp))
      = (none, 3, [RETRY_BASE_DELAY, 2 * RETRY_BASE_DELAY,
          4 * RETRY_BASE_DELAY]) ∧
    photos_upload_bytes (fun _ => (⟨500, ""⟩ : HttpResp)) = (none, 1, []) ∧
    photos_upload_bytes
        (fun i => if i = 0 then (⟨429, ""⟩ : HttpResp) else ⟨200, "tok"⟩)
      = (some "tok", 2, [RETRY_BASE_DELAY]) ∧
    process_one_file (sampleFile 0) "none"
        ⟨.error "boom", fun _ => ⟨200, "tok"⟩⟩ (fun _ => "h") freshState none
      = ⟨.failed, freshState.record_failure, none, true⟩ :=
  ⟨fun _ => rfl,
    (claim4_amended (fun _ => ⟨429, ""⟩) 0 "").1 (fun _ => rfl),
    (claim4_amended (fun _ => ⟨500, ""⟩) 500 "").2.1 rfl (by decide) (by decide),
    (claim4_amended (fun i => if i = 0 then ⟨429, ""⟩ else ⟨200, "tok"⟩)
      0 "tok").2.2.1 rfl rfl rfl,
    (claim4_amended (fun _ => ⟨200, ""⟩) 0 "").2.2.2 (sampleFile 0) "none"
      (fun _ => "h") freshState none "boom" (fun _ => ⟨200, "tok"⟩) rfl rfl⟩

end Wind

namespace Wind

/-! ## Claim C6 -/

/-- Reading a file just written yields its new content. -/
theorem readDisk_writeDisk_eq (d : Disk) (p c : String) :
    readDisk (writeDisk d p c) p = some c := by
  simp [readDisk, writeDisk, List.find?]

/-- Writing one file leaves every other file unchanged. -/
theorem readDisk_writeDisk_ne (d : Disk) (p q c : String) (h : ¬ q = p) :
    readDisk (writeDisk d p c) q = readDisk d q := by
  simp only [readDisk, writeDisk, List.find?]
  have : (decide (p = q)) = false := by
    simp
    intro e
    exact h e.symm
  simp [this]

/-- Removing one file leaves every other file unchanged. -/
theorem readDisk_removeDisk_ne (d : Disk) (p q : String) (h : ¬ q = p) :
    readDisk (removeDisk d p) q = readDisk d q := by
  induction d with
  | nil => rfl
  | cons kv rest ih =>
    by_cases hk : kv.1 = p
    · have h1 : removeDisk (kv :: rest) p = removeDisk rest p := by
        simp [removeDisk, hk]
      have h2 : (decide (kv.1 = q)) = false := by
        simp
        intro e
        exact h (hk ▸ e ▸ rfl)
      rw [h1, ih]
      simp only [readDisk, List.find?, h2]
    · have h1 : removeDisk (kv :: rest) p = kv :: removeDisk rest p := by
        simp [removeDisk, hk]
      rw [h1]
      simp only [readDisk, List.find?]
      cases hq : (decide (kv.1 = q)) with
      | true => rfl
      | false => exact ih

/-- A file's own name is never its name with `".tmp"` appended. -/
theorem path_ne_tmp (p : String) : ¬ p = p ++ ".tmp" := by
  intro e
  have := congrArg String.length e
  simp [String.length_append] at this
  exact absurd this (by decide)

/-- C6 (amended): the two Dedup Ledger set files are written by
`_save_json_set` via write-to-temp-then-atomic-rename, so at every
crash point mid-save the ledger file holds either the complete old
content or the complete new content — never a truncated mix.  (The
filename-cache file is NOT written this way; see the counterexample.) -/
theorem claim6_amended (d : Disk) (path content : String)
    (hp : path = UPLOADED_IDS_FILE ∨ path = UPLOADED_HASHES_FILE) :
    ∀ s ∈ crashStates d (save_json_set_steps path content),
      readDisk s path = readDisk d path ∨ readDisk s path = some content := by
  intro s hs
  have htmp : ¬ path = path ++ ".tmp" := path_ne_tmp path
  simp only [crashStates, save_json_set_steps, List.scanl, List.mem_cons,
    List.mem_singleton, List.not_mem_nil, or_false] at hs
  rcases hs with h | h | h | h
  · subst h; left; rfl
  · subst h
    left
    exact readDisk_writeDisk_ne d _ path "" htmp
  · subst h
    left
    rw [show applyStep d (FsStep.write (path ++ ".tmp") "")
        = writeDisk d (path ++ ".tmp") "" from rfl,
      show applyStep (writeDisk d (path ++ ".tmp") "")
          (FsStep.write (path ++ ".tmp") content)
        = writeDisk (writeDisk d (path ++ ".tmp") "") (path ++ ".tmp") content
        from rfl,
      readDisk_writeDisk_ne _ _ path content htmp,
      readDisk_writeDisk_ne _ _ path "" htmp]
  · subst h
    right
    have hs2 : readDisk (writeDisk (writeDisk d (path ++ ".tmp") "")
        (path ++ ".tmp") content) (path ++ ".tmp") = some content :=
      readDisk_writeDisk_eq _ _ _
    rw [show applyStep (applyStep (applyStep d (FsStep.write (path ++ ".tmp") ""))
          (FsStep.write (path ++ ".tmp") content))
          (FsStep.rename (path ++ ".tmp") path)
        = match readDisk (writeDisk (writeDisk d (path ++ ".tmp") "")
            (path ++ ".tmp") content) (path ++ ".tmp") with
          | some c => writeDisk (removeDisk (writeDisk (writeDisk d
              (path ++ ".tmp") "") (path ++ ".tmp") content) (path ++ ".tmp")) path c
          | none => writeDisk (writeDisk d (path ++ ".tmp") "")
              (path ++ ".tmp") content
        from rfl, hs2]
    exact readDisk_writeDisk_eq _ _ _

/-- C6 (counterexample): the filename-cache file is written directly
(`open(PHOTOS_FILENAME_CACHE_FILE, "w")` then `json.dump`), with no
temporary and no rename: a crash between the truncating open and the
write leaves an empty cache file that is neither the old nor the new
snapshot. -/
theorem claim6_counterexample :
    ∃ s ∈ crashStates [(PHOTOS_FILENAME_CACHE_FILE, "OLD")]
        (cache_save_steps "NEW"),
      readDisk s PHOTOS_FILENAME_CACHE_FILE ≠ some "OLD" ∧
      readDisk s PHOTOS_FILENAME_CACHE_FILE ≠ some "NEW" := by
  refine ⟨applyStep [(PHOTOS_FILENAME_CACHE_FILE, "OLD")]
    (FsStep.write PHOTOS_FILENAME_CACHE_FILE ""), ?_, by decide, by decide⟩
  simp [crashStates, cache_save_steps, List.scanl]

/-- C6 (witness): the amended atomicity statement at a concrete disk
holding an old ledger snapshot. -/
theorem claim6_witness :
    (UPLOADED_IDS_FILE = UPLOADED_IDS_FILE ∨
      UPLOADED_IDS_FILE = UPLOADED_HASHES_FILE) ∧
    (∀ s ∈ crashStates [(UPLOADED_IDS_FILE, "OLD")]
        (save_json_set_steps UPLOADED_IDS_FILE "NEW"),
      readDisk s UPLOADED_IDS_FILE
          = readDisk [(UPLOADED_IDS_FILE, "OLD")] UPLOADED_IDS_FILE ∨
        readDisk s UPLOADED_IDS_FILE = some "NEW") :=
  ⟨Or.inl rfl,
    claim6_amended [(UPLOADED_IDS_FILE, "OLD")] UPLOADED_IDS_FILE "NEW"
      (Or.inl rfl)⟩

end Wind

namespace Wind

/-! ## Claim C7 -/

/-- The upload-and-enqueue phase never returns `"skipped"`. -/
theorem uploadAndEnqueue_outcome (f : FileMeta) (env : ItemEnv)
    (fh : Option String) (st : SyncState) :
    (uploadAndEnqueue f env fh st).enqueued = none ∨
    (uploadAndEnqueue f env fh st).outcome = Outcome.uploaded := by
  unfold uploadAndEnqueue
  split
  · left; rfl
  split
  · left; rfl
  · right; rfl

/-- A worker hands an item to the batch collector only on the
`"uploaded"` path. -/
theorem process_one_file_enqueued (f : FileMeta) (mode : String)
    (env : ItemEnv) (hashOf : List Nat → String) (st : SyncState)
    (cache : Option (Finset String)) :
    (process_one_file f mode env hashOf st cache).enqueued = none ∨
    (process_one_file f mode env hashOf st cache).outcome = Outcome.uploaded := by
  unfold process_one_file
  split
  · left; rfl
  split
  · left; rfl
  split
  · left; rfl
  split
  · split
    · left; rfl
    · exact uploadAndEnqueue_outcome ..
  · exact uploadAndEnqueue_outcome ..

/-- C7: dedup-mode semantics.  Under `filename` a name-index hit skips
with no download; under `hash` the item is downloaded and skipped
exactly when its content hash is in the ledger; under `filename+hash`
either the pre-download name hit or the post-download hash hit
suffices; and a skipped item is never handed to the batch collector. -/
theorem claim7_theorem (f : FileMeta) (st : SyncState) (cs : Finset String)
    (env : ItemEnv) (hashOf : List Nat → String) (data : List Nat)
    (hlive : st.shutdown = false) :
    (f.name ∈ cs →
      process_one_file f "filename" env hashOf st (some cs)
        = ⟨.skipped, st.record_skip, none, false⟩) ∧
    (env.download = .ok data → hashOf data ∈ st.uploaded_hashes →
      process_one_file f "hash" env hashOf st (some cs)
        = ⟨.skipped, st.record_skip, none, true⟩) ∧
    (env.download = .ok data → hashOf data ∉ st.uploaded_hashes →
      ¬ (process_one_file f "hash" env hashOf st (some cs)).outcome
          = Outcome.skipped) ∧
    (f.name ∈ cs →
      process_one_file f "filename+hash" env hashOf st (some cs)
        = ⟨.skipped, st.record_skip, none, false⟩) ∧
    (f.name ∉ cs → env.download = .ok data → hashOf data ∈ st.uploaded_hashes →
      process_one_file f "filename+hash" env hashOf st (some cs)
        = ⟨.skipped, st.record_skip, none, true⟩) ∧
    (∀ (mode : String) (cache : Option (Finset String)),
      (process_one_file f mode env hashOf st cache).outcome = Outcome.skipped →
      (process_one_file f mode env hashOf st cache).enqueued = none) := by
  refine ⟨?_, ?_, ?_, ?_, ?_, ?_⟩
  · intro hmem
    simp [process_one_file, hlive, cacheContains, hmem]
  · intro hdl hmem
    have hname : ((("hash" : String) = "filename" ||
        ("hash" : String) = "filename+hash") : Bool) = false := by decide
    simp [process_one_file, hlive, hname, hdl, hmem]
  · intro hdl hmem
    have hname : ((("hash" : String) = "filename" ||
        ("hash" : String) = "filename+hash") : Bool) = false := by decide
    have hstep : process_one_file f "hash" env hashOf st (some cs)
        = uploadAndEnqueue f env (some (hashOf data)) st := by
      simp [process_one_file, hlive, hname, hdl, hmem]
    rw [hstep]
    unfold uploadAndEnqueue
    split
    · simp
    split <;> simp
  · intro hmem
    simp [process_one_file, hlive, cacheContains, hmem]
  · intro hname hdl hmem
    simp [process_one_file, hlive, cacheContains, hname, hdl, hmem]
  · intro mode cache hskip
    rcases process_one_file_enqueued f mode env hashOf st cache with h | h
    · exact h
    · rw [hskip] at h
      cases h

/-- C7 (witness): the three dedup modes at a concrete item whose name
is in the index and whose content hash is in the ledger. -/
theorem claim7_witness :
    (ledgerState.shutdown = false) ∧
    ((sampleFile 0).name ∈ ({"f0.jpg"} : Finset String)) ∧
    process_one_file (sampleFile 0) "filename" okEnv (fun _ => "h")
        ledgerState (some {"f0.jpg"})
      = ⟨.skipped, ledgerState.record_skip, none, false⟩ ∧
    process_one_file (sampleFile 0) "hash" okEnv (fun _ => "h")
        ledgerState (some {"f0.jpg"})
      = ⟨.skipped, ledgerState.record_skip, none, true⟩ ∧
    process_one_file (sampleFile 0) "filename+hash" okEnv (fun _ => "h")
        ledgerState (some {"f0.jpg"})
      = ⟨.skipped, ledgerState.record_skip, none, false⟩ :=
  ⟨rfl, by decide,
    (claim7_theorem (sampleFile 0) ledgerState {"f0.jpg"} okEnv (fun _ => "h")
      [0] rfl).1 (by decide),
    (claim7_theorem (sampleFile 0) ledgerState {"f0.jpg"} okEnv (fun _ => "h")
      [0] rfl).2.1 rfl (by decide),
    (claim7_theorem (sampleFile 0) ledgerState {"f0.jpg"} okEnv (fun _ => "h")
      [0] rfl).2.2.2.1 (by decide)⟩

end Wind

namespace Wind

/-! ## Claims C1 and C8 -/

/-- Every popped batch is at most `BATCH_SIZE` items. -/
theorem popBatchesAux_length_le (fuel : Nat) :
    ∀ (l : List BatchItem) (b : List BatchItem),
      b ∈ popBatchesAux fuel l → b.length ≤ BATCH_SIZE := by
  induction fuel with
  | zero => intro l b h; simp [popBatchesAux] at h
  | succ fuel ih =>
    intro l b h
    cases l with
    | nil => simp [popBatchesAux] at h
    | cons x xs =>
      rw [popBatchesAux_cons fuel _ (by simp)] at h
      rcases List.mem_cons.mp h with h | h
      · subst h
        exact List.length_take_le ..
      · exact ih _ _ h

/-- Every drained batch is at most `BATCH_SIZE` items. -/
theorem batchesOf_getD_length_le (buf : List BatchItem) (j : Nat) :
    ((batchesOf buf).getD j []).length ≤ BATCH_SIZE := by
  by_cases h : j < (batchesOf buf).length
  · have hmem : (batchesOf buf).getD j [] ∈ batchesOf buf := by
      rw [List.getD_eq_getElem?_getD, List.getElem?_eq_getElem h]
      exact List.getElem_mem ..
    exact popBatchesAux_length_le _ _ _ hmem
  · rw [List.getD_eq_getElem?_getD, List.getElem?_eq_none (le_of_not_lt h)]
    simp [BATCH_SIZE]

/-- The all-success script covers every batch that fits a call. -/
theorem flushCovers_okScript (n : Nat) (h : n ≤ BATCH_SIZE) :
    flushCovers (okScript BATCH_SIZE) n := by
  intro r hr h200
  rw [show effectiveResp (attemptList (okScript BATCH_SIZE))
      = some ⟨200, List.replicate BATCH_SIZE okItemResult⟩ from rfl] at hr
  cases hr
  simpa using h

/-- Reading a store file just written yields its new content. -/
theorem readStore_setFile_eq (d : Store) (p : String) (c : List String) :
    readStore (setFile d p c) p = some c := by
  simp [readStore, setFile, List.find?]

/-- Writing one store file leaves every other file unchanged. -/
theorem readStore_setFile_ne (d : Store) (p q : String) (c : List String)
    (h : ¬ q = p) :
    readStore (setFile d p c) q = readStore d q := by
  simp only [readStore, setFile, List.find?]
  have : (decide (p = q)) = false := by
    simp
    intro e
    exact h e.symm
  simp [this]

/-- The final checkpoint really lands on disk: after `flush` both
ledger files hold the serialisation of the in-memory sets. -/
theorem flush_readStore (s : SyncState) :
    readStore s.flush.fs UPLOADED_IDS_FILE
      = some (serializeSet s.flush.uploaded_ids) ∧
    readStore s.flush.fs UPLOADED_HASHES_FILE
      = some (serializeSet s.flush.uploaded_hashes) := by
  have hne : ¬ (UPLOADED_IDS_FILE = UPLOADED_HASHES_FILE) := by decide
  constructor
  · rw [show s.flush.fs = setFile (setFile s.fs UPLOADED_IDS_FILE
        (serializeSet s.uploaded_ids)) UPLOADED_HASHES_FILE
        (serializeSet s.uploaded_hashes) from rfl,
      readStore_setFile_ne _ _ _ _ hne, readStore_setFile_eq]
    rfl
  · rw [show s.flush.fs = setFile (setFile s.fs UPLOADED_IDS_FILE
        (serializeSet s.uploaded_ids)) UPLOADED_HASHES_FILE
        (serializeSet s.uploaded_hashes) from rfl,
      readStore_setFile_eq]
    rfl

/-- `_handle_interrupt` is idempotent: a second signal changes nothing
and prints no second notice. -/
theorem handleInterrupt_idem (st : SyncState) :
    handleInterrupt (handleInterrupt st).1 = ((handleInterrupt st).1, false) := by
  unfold handleInterrupt
  by_cases h : st.shutdown = true <;> simp [h]

/-- C1 (counterexample): the claim says every item handed to
`process_one_file` ends with exactly one of the three record calls; an
item handed while the shutdown flag is set returns `"skipped"` without
`record_skip`, so one item is submitted and zero outcomes are
counted. -/
theorem claim1_counterexample :
    totalItems [RunEvent.item (sampleFile 0) okEnv] = 1 ∧
    sumCounters (mainRun (fun _ => "h") "none" none
      [RunEvent.item (sampleFile 0) okEnv] (fun _ => okScript BATCH_SIZE)
      { freshState with shutdown := true }).1 = 0 :=
  ⟨rfl, rfl⟩

/-- C1 (amended): provided the cancellation flag is never set during
the run and every HTTP-200 group-commit response carries at least one
entry per submitted item, the final counters satisfy
`succeeded + failed + skipped = total items submitted to the pool`. -/
theorem claim1_amended (hashOf : List Nat → String) (mode : String)
    (cache : Option (Finset String)) (events : List RunEvent)
    (scripts : Nat → Nat → BatchResp) (st0 : SyncState)
    (hlive : st0.shutdown = false)
    (hni : ∀ e ∈ events, e ≠ RunEvent.interrupt)
    (hcov : ∀ j, flushCovers (scripts j)
      (((batchesOf (runEvents hashOf mode cache events st0 []).2).getD j []).length)) :
    sumCounters (mainRun hashOf mode cache events scripts st0).1
      = sumCounters st0 + totalItems events := by
  rw [mainRun_sum hashOf mode cache events scripts st0 hcov, hlive,
    claimedCount_no_interrupt events hni]

/-- C1 (witness): a one-item run against an all-success destination. -/
theorem claim1_witness :
    freshState.shutdown = false ∧
    sumCounters (mainRun (fun _ => "h") "none" none
        [RunEvent.item (sampleFile 0) okEnv] (fun _ => okScript BATCH_SIZE)
        freshState).1
      = sumCounters freshState + totalItems [RunEvent.item (sampleFile 0) okEnv] :=
  ⟨rfl,
    claim1_amended (fun _ => "h") "none" none
      [RunEvent.item (sampleFile 0) okEnv] (fun _ => okScript BATCH_SIZE)
      freshState rfl
      (fun e he => by
        simp at he
        subst he
        intro hcontra
        cases hcontra)
      (fun j => flushCovers_okScript _ (batchesOf_getD_length_le _ j))⟩

/-- C8 (counterexample): the claim says every already-claimed item
reaches a counted terminal outcome after cancellation; here one item is
claimed before the interrupt, its batch's 200-response carries no
entries, and counters end at zero. -/
theorem claim8_counterexample :
    claimedCount [RunEvent.item (sampleFile 0) okEnv, RunEvent.interrupt]
        false = 1 ∧
    sumCounters (mainRun (fun _ => "h") "none" none
      [RunEvent.item (sampleFile 0) okEnv, RunEvent.interrupt]
      (fun _ _ => ⟨200, []⟩) freshState).1 = 0 :=
  ⟨rfl, rfl⟩

/-- C8 (amended): after the cancellation flag is set, a worker claims
no new item (it returns at once, changing nothing); provided every
HTTP-200 group-commit response covers its batch, every claimed item
still ends in exactly one counted terminal outcome; the run always
drains the whole buffer into group-commit calls and writes the final
checkpoint before returning; and setting the flag a second time has no
additional effect and prints no second notice. -/
theorem claim8_amended (hashOf : List Nat → String) (mode : String)
    (cache : Option (Finset String)) (events : List RunEvent)
    (scripts : Nat → Nat → BatchResp) (st0 : SyncState)
    (hcov : ∀ j, flushCovers (scripts j)
      (((batchesOf (runEvents hashOf mode cache events st0 []).2).getD j []).length)) :
    (∀ (f : FileMeta) (env : ItemEnv) (st : SyncState)
        (c : Option (Finset String)), st.shutdown = true →
      process_one_file f mode env hashOf st c = ⟨.skipped, st, none, false⟩) ∧
    sumCounters (mainRun hashOf mode cache events scripts st0).1
      = sumCounters st0 + claimedCount events st0.shutdown ∧
    (batchesOf (runEvents hashOf mode cache events st0 []).2).flatten
      = (runEvents hashOf mode cache events st0 []).2 ∧
    readStore (mainRun hashOf mode cache events scripts st0).1.fs
        UPLOADED_IDS_FILE
      = some (serializeSet
          (mainRun hashOf mode cache events scripts st0).1.uploaded_ids) ∧
    readStore (mainRun hashOf mode cache events scripts st0).1.fs
        UPLOADED_HASHES_FILE
      = some (serializeSet
          (mainRun hashOf mode cache events scripts st0).1.uploaded_hashes) ∧
    (∀ st : SyncState,
      handleInterrupt (handleInterrupt st).1 = ((handleInterrupt st).1, false)) := by
  refine ⟨?_, ?_, ?_, ?_, ?_, ?_⟩
  · intro f env st c h
    exact process_one_file_shutdown f mode env hashOf st c h
  · exact mainRun_sum hashOf mode cache events scripts st0 hcov
  · exact batchesOf_join _
  · exact (flush_readStore _).1
  · exact (flush_readStore _).2
  · exact handleInterrupt_idem

/-- C8 (witness): a run with one claimed item followed by an interrupt
against an all-success destination. -/
theorem claim8_witness :
    sumCounters (mainRun (fun _ => "h") "none" none
        [RunEvent.item (sampleFile 0) okEnv, RunEvent.interrupt]
        (fun _ => okScript BATCH_SIZE) freshState).1
      = sumCounters freshState
        + claimedCount [RunEvent.item (sampleFile 0) okEnv, RunEvent.interrupt]
            freshState.shutdown ∧
    (∀ st : SyncState,
      handleInterrupt (handleInterrupt st).1 = ((handleInterrupt st).1, false)) :=
  ⟨(claim8_amended (fun _ => "h") "none" none
      [RunEvent.item (sampleFile 0) okEnv, RunEvent.interrupt]
      (fun _ => okScript BATCH_SIZE) freshState
      (fun j => flushCovers_okScript _ (batchesOf_getD_length_le _ j))).2.1,
    (claim8_amended (fun _ => "h") "none" none
      [RunEvent.item (sampleFile 0) okEnv, RunEvent.interrupt]
      (fun _ => okScript BATCH_SIZE) freshState
      (fun j => flushCovers_okScript _ (batchesOf_getD_length_le _ j))).2.2.2.2.2⟩

end Wind
